import Mathlib

set_option maxRecDepth 4000

/-!
Shallow embedding of the Ziria SIMD kernel library (`csrc/sora_ext_lib.cpp`).

Machine integers are modelled as `Int` with explicit wrapping (`wrap16`,
`wrap32`, ...); unsigned views of lanes are `Nat` with explicit `% 2^w`.
Buffers are modelled as functions `Nat → α` (the caller-owned memory), and a
kernel returns the updated output buffer (plus its C return value where the
source returns one).  All 128-bit SSE intrinsics used by the kernels act
independently on 32-bit (or 16-bit) lanes, and loads/stores map the `j`-th
buffer element to the `j`-th lane of block `j / lanewidth`, so each kernel is
embedded per element: the element-level definitions below follow the exact
instruction sequence of the source, specialised to the single lane holding
that element.
-/

namespace Ziria

/-- Two's-complement wrap of an integer into the signed 8-bit range
(the effect of storing a C `int` into an `int8` object). -/
def wrap8 (v : Int) : Int := (v + 128) % 256 - 128

/-- Two's-complement wrap into the signed 16-bit range (storing into `int16`/`num16`). -/
def wrap16 (v : Int) : Int := (v + 32768) % 65536 - 32768

/-- Two's-complement wrap into the signed 32-bit range (C `int` arithmetic). -/
def wrap32 (v : Int) : Int := (v + 2147483648) % 4294967296 - 2147483648

/-- The unsigned 16-bit pattern of a signed value (reading an `int16` object as `unum16`). -/
def toU16 (v : Int) : Nat := (v % 65536).toNat

/-- The unsigned 32-bit pattern of a signed value. -/
def toU32 (v : Int) : Nat := (v % 4294967296).toNat

/-- Reading a 16-bit pattern as a signed `int16`. -/
def toS16 (n : Nat) : Int := if n % 65536 < 32768 then (n % 65536 : Int) else (n % 65536 : Int) - 65536

/-- Reading a 32-bit pattern as a signed `int32`. -/
def toS32 (n : Nat) : Int := if n % 4294967296 < 2147483648 then (n % 4294967296 : Int) else (n % 4294967296 : Int) - 4294967296

/-- Arithmetic (sign-extending) right shift on a signed value: floor division
by `2^s`.  This is the semantics of C `>>` on a signed operand (GCC) and of
the `_mm_srai_*` intrinsics on each lane. -/
def asr (v : Int) (s : Nat) : Int := v / 2 ^ s

/-- The `int16` range predicate. -/
def inRange16 (v : Int) : Prop := -32768 ≤ v ∧ v < 32768

/-- The `int32` range predicate. -/
def inRange32 (v : Int) : Prop := -2147483648 ≤ v ∧ v < 2147483648

instance (v : Int) : Decidable (inRange16 v) := by unfold inRange16; infer_instance

instance (v : Int) : Decidable (inRange32 v) := by unfold inRange32; infer_instance

/-- The `struct complex16`: a complex sample with `int16` components. -/
structure complex16 where
  re : Int
  im : Int
deriving DecidableEq, Repr

/-- The `struct complex32`: a complex sample with `int32` components. -/
structure complex32 where
  re : Int
  im : Int
deriving DecidableEq, Repr

/-- The `struct complex8`: a complex sample with `int8` components. -/
structure complex8 where
  re : Int
  im : Int
deriving DecidableEq, Repr

/-- Both components of a `complex16` are in `int16` range. -/
def inRangeC16 (z : complex16) : Prop := inRange16 z.re ∧ inRange16 z.im

instance (z : complex16) : Decidable (inRangeC16 z) := by unfold inRangeC16; infer_instance

/-- Both components of a `complex32` are in `int32` range. -/
def inRangeC32 (z : complex32) : Prop := inRange32 z.re ∧ inRange32 z.im

instance (z : complex32) : Decidable (inRangeC32 z) := by unfold inRangeC32; infer_instance

/-! ### SSE lane primitives

Each is the action of one intrinsic on a single lane, on unsigned lane
patterns (`Nat`) or signed lane values (`Int`). -/

/-- One 32-bit lane of `_mm_xor_si128`. -/
def xor32u (a b : Nat) : Nat := a ^^^ b

/-- One 32-bit lane of `_mm_or_si128`. -/
def or32u (a b : Nat) : Nat := a ||| b

/-- One 32-bit lane of `_mm_and_si128`. -/
def and32u (a b : Nat) : Nat := a &&& b

/-- One 32-bit lane of `_mm_add_epi32`, on unsigned patterns. -/
def add32u (a b : Nat) : Nat := (a + b) % 4294967296

/-- One 32-bit lane of `_mm_slli_epi32`, on unsigned patterns. -/
def shl32u (a : Nat) (s : Nat) : Nat := a * 2 ^ s % 4294967296

/-- The `_mm_shufflehi_epi16` / `_mm_shufflelo_epi16` with `_MM_SHUFFLE(2,3,0,1)`:
swap the two 16-bit halves of each 32-bit lane. -/
def swapHalves32 (u : Nat) : Nat := u / 65536 % 65536 + 65536 * (u % 65536)

/-- One 32-bit lane of `_mm_madd_epi16`: multiply the signed 16-bit halves
pairwise and add the two 32-bit products, wrapping at 32 bits. -/
def madd16lane (a b : Nat) : Int :=
  wrap32 (toS16 (a % 65536) * toS16 (b % 65536) +
    toS16 (a / 65536 % 65536) * toS16 (b / 65536 % 65536))

/-- The unsigned 32-bit lane pattern of one `complex16` in memory: `re` in the
low half, `im` in the high half (little-endian layout of the struct). -/
def laneOfC16 (z : complex16) : Nat := toU16 z.re + 65536 * toU16 z.im

/-- Read one 32-bit lane back as a `complex16`. -/
def c16OfLane (u : Nat) : complex16 := ⟨toS16 (u % 65536), toS16 (u / 65536 % 65536)⟩

/-- One 16-bit lane of `_mm_srai_epi16` (arithmetic shift of the lane's signed value). -/
def srai16 (v : Int) (s : Nat) : Int := asr (toS16 (toU16 v)) s

/-- One 32-bit lane of `_mm_srai_epi32`. -/
def srai32 (v : Int) (s : Nat) : Int := asr (toS32 (toU32 v)) s

/-- One 16-bit lane of `_mm_slli_epi16` (logical shift of the lane pattern). -/
def slli16 (v : Int) (s : Nat) : Int := toS16 (toU16 v * 2 ^ s % 65536)

/-- One 32-bit lane of `_mm_slli_epi32`. -/
def slli32 (v : Int) (s : Nat) : Int := toS32 (toU32 v * 2 ^ s % 4294967296)

/-! ### Elementwise add / sub kernels

The vectorized main loop covers elements `i < len / wlen * wlen`; the scalar
remainder loop covers the rest up to `len`.  `_mm_add_epi16` / `_mm_sub_epi16`
(resp. `_epi32`) act lanewise, so both branches are written per element.  The
`__unused_*` arguments and the constant `return 0` are kept. -/

def __ext_v_add_complex16 (c : Nat → complex16) (len : Nat) (a : Nat → complex16)
    (u2 : Int) (b : Nat → complex16) (u1 : Int) : (Nat → complex16) × Int :=
  (fun i =>
    if i < len / 4 * 4 then ⟨wrap16 ((a i).re + (b i).re), wrap16 ((a i).im + (b i).im)⟩
    else if i < len then ⟨wrap16 ((a i).re + (b i).re), wrap16 ((a i).im + (b i).im)⟩
    else c i, 0)

def __ext_v_add_complex32 (c : Nat → complex32) (len : Nat) (a : Nat → complex32)
    (u2 : Int) (b : Nat → complex32) (u1 : Int) : (Nat → complex32) × Int :=
  (fun i =>
    if i < len / 2 * 2 then ⟨wrap32 ((a i).re + (b i).re), wrap32 ((a i).im + (b i).im)⟩
    else if i < len then ⟨wrap32 ((a i).re + (b i).re), wrap32 ((a i).im + (b i).im)⟩
    else c i, 0)

def __ext_v_add_int16 (c : Nat → Int) (len : Nat) (a : Nat → Int)
    (u2 : Int) (b : Nat → Int) (u1 : Int) : (Nat → Int) × Int :=
  (fun i =>
    if i < len / 8 * 8 then wrap16 (a i + b i)
    else if i < len then wrap16 (a i + b i)
    else c i, 0)

def __ext_v_add_int32 (c : Nat → Int) (len : Nat) (a : Nat → Int)
    (u2 : Int) (b : Nat → Int) (u1 : Int) : (Nat → Int) × Int :=
  (fun i =>
    if i < len / 4 * 4 then wrap32 (a i + b i)
    else if i < len then wrap32 (a i + b i)
    else c i, 0)

def __ext_v_sub_complex16 (c : Nat → complex16) (len : Nat) (a : Nat → complex16)
    (u2 : Int) (b : Nat → complex16) (u1 : Int) : (Nat → complex16) × Int :=
  (fun i =>
    if i < len / 4 * 4 then ⟨wrap16 ((a i).re - (b i).re), wrap16 ((a i).im - (b i).im)⟩
    else if i < len then ⟨wrap16 ((a i).re - (b i).re), wrap16 ((a i).im - (b i).im)⟩
    else c i, 0)

def __ext_v_sub_complex32 (c : Nat → complex32) (len : Nat) (a : Nat → complex32)
    (u2 : Int) (b : Nat → complex32) (u1 : Int) : (Nat → complex32) × Int :=
  (fun i =>
    if i < len / 2 * 2 then ⟨wrap32 ((a i).re - (b i).re), wrap32 ((a i).im - (b i).im)⟩
    else if i < len then ⟨wrap32 ((a i).re - (b i).re), wrap32 ((a i).im - (b i).im)⟩
    else c i, 0)

def __ext_v_sub_int16 (c : Nat → Int) (len : Nat) (a : Nat → Int)
    (u2 : Int) (b : Nat → Int) (u1 : Int) : (Nat → Int) × Int :=
  (fun i =>
    if i < len / 8 * 8 then wrap16 (a i - b i)
    else if i < len then wrap16 (a i - b i)
    else c i, 0)

def __ext_v_sub_int32 (c : Nat → Int) (len : Nat) (a : Nat → Int)
    (u2 : Int) (b : Nat → Int) (u1 : Int) : (Nat → Int) × Int :=
  (fun i =>
    if i < len / 4 * 4 then wrap32 (a i - b i)
    else if i < len then wrap32 (a i - b i)
    else c i, 0)

/-! ### hadd and sum kernels -/

/-- The `__ext_v_hadd_complex16`: sum of the four input elements broadcast into
all four output lanes (C sums in `int`, the store into `num16` wraps). -/
def __ext_v_hadd_complex16 (z : Nat → complex16) (u2 : Int) (x : Nat → complex16)
    (u1 : Int) : (Nat → complex16) × Int :=
  (fun i =>
    if i < 4 then
      ⟨wrap16 ((x 0).re + (x 1).re + (x 2).re + (x 3).re),
       wrap16 ((x 0).im + (x 1).im + (x 2).im + (x 3).im)⟩
    else z i, 0)

/-- The `__ext_v_hadd_int32`: `z[0] = x[0]+x[1]+x[2]+x[3]` (wrapping `int`
arithmetic), then `z[1..3] = z[0]`. -/
def __ext_v_hadd_int32 (z : Nat → Int) (u21 : Int) (x : Nat → Int)
    (u20 : Int) : (Nat → Int) × Int :=
  (fun i => if i < 4 then wrap32 (x 0 + x 1 + x 2 + x 3) else z i, 0)

/-- The `__ext_v_sum_complex16`: sequential accumulation into a `complex16`
(each `+=` wraps at the 16-bit component width). -/
def __ext_v_sum_complex16 (x : Nat → complex16) (len : Nat) : complex16 :=
  (List.range len).foldl
    (fun ret i => ⟨wrap16 (ret.re + (x i).re), wrap16 (ret.im + (x i).im)⟩)
    ⟨0, 0⟩

def __ext_v_sum_complex32 (x : Nat → complex32) (len : Nat) : complex32 :=
  (List.range len).foldl
    (fun ret i => ⟨wrap32 (ret.re + (x i).re), wrap32 (ret.im + (x i).im)⟩)
    ⟨0, 0⟩

/-- The `__ext_v_sum_int16`: accumulator `num16`, each `+=` wraps at 16 bits. -/
def __ext_v_sum_int16 (x : Nat → Int) (len : Nat) : Int :=
  (List.range len).foldl (fun sum i => wrap16 (sum + x i)) 0

/-- The `__ext_v_sum_int32`: accumulator `num32`, each `+=` wraps at 32 bits. -/
def __ext_v_sum_int32 (x : Nat → Int) (len : Nat) : Int :=
  (List.range len).foldl (fun sum i => wrap32 (sum + x i)) 0

/-- The `__ext_sumc32`: sum of 4 `complex32` values (wrapping `int32` stores). -/
def __ext_sumc32 (x : Nat → complex32) (u20 : Int) : complex32 :=
  ⟨wrap32 ((x 0).re + (x 1).re + (x 2).re + (x 3).re),
   wrap32 ((x 0).im + (x 1).im + (x 2).im + (x 3).im)⟩

/-- The `__ext_sumc16`: sum of 4 `complex16` values (wrapping `int16` stores). -/
def __ext_sumc16 (x : Nat → complex16) (u20 : Int) : complex16 :=
  ⟨wrap16 ((x 0).re + (x 1).re + (x 2).re + (x 3).re),
   wrap16 ((x 0).im + (x 1).im + (x 2).im + (x 3).im)⟩

/-- The `__ext_sumi32`: the accumulator is declared `int16 ret`, so every `+=`
wraps at 16 bits; the 16-bit value is then returned as `int32`. -/
def __ext_sumi32 (x : Nat → Int) (u21 : Int) : Int :=
  (List.range 4).foldl (fun ret i => wrap16 (ret + x i)) 0

/-- The `__ext_sumi16`: `int16` accumulator, 4 elements. -/
def __ext_sumi16 (x : Nat → Int) (u21 : Int) : Int :=
  (List.range 4).foldl (fun ret i => wrap16 (ret + x i)) 0

/-! ### Shift kernels

The vectorized loop uses `_mm_srai_*` (arithmetic) / `_mm_slli_*`.  For the
`complex16`/`complex32` variants the scalar remainder loop reinterprets the
buffers as *unsigned* (`unum16*` / `unum32*`) components and uses C `>>` /
`<<` on the unsigned value, covering components `(len/wlen)*wlen*2 ..< len*2`,
i.e. elements `(len/wlen)*wlen ..< len`. -/

def __ext_v_shift_right_complex32 (z : Nat → complex32) (u3 : Int) (x : Nat → complex32)
    (len : Nat) (shift : Nat) : (Nat → complex32) × Int :=
  (fun i =>
    if i < len / 2 * 2 then ⟨srai32 (x i).re shift, srai32 (x i).im shift⟩
    else if i < len then
      ⟨toS32 (toU32 (x i).re >>> shift), toS32 (toU32 (x i).im >>> shift)⟩
    else z i, 0)

def __ext_v_shift_left_complex32 (z : Nat → complex32) (u3 : Int) (x : Nat → complex32)
    (len : Nat) (shift : Nat) : (Nat → complex32) × Int :=
  (fun i =>
    if i < len / 2 * 2 then ⟨slli32 (x i).re shift, slli32 (x i).im shift⟩
    else if i < len then
      ⟨toS32 ((toU32 (x i).re <<< shift) % 4294967296),
       toS32 ((toU32 (x i).im <<< shift) % 4294967296)⟩
    else z i, 0)

def __ext_v_shift_right_complex16 (z : Nat → complex16) (u3 : Int) (x : Nat → complex16)
    (len : Nat) (shift : Nat) : (Nat → complex16) × Int :=
  (fun i =>
    if i < len / 4 * 4 then ⟨srai16 (x i).re shift, srai16 (x i).im shift⟩
    else if i < len then
      ⟨toS16 (toU16 (x i).re >>> shift), toS16 (toU16 (x i).im >>> shift)⟩
    else z i, 0)

def __ext_v_shift_left_complex16 (z : Nat → complex16) (u3 : Int) (x : Nat → complex16)
    (len : Nat) (shift : Nat) : (Nat → complex16) × Int :=
  (fun i =>
    if i < len / 4 * 4 then ⟨slli16 (x i).re shift, slli16 (x i).im shift⟩
    else if i < len then
      ⟨toS16 ((toU16 (x i).re <<< shift) % 65536),
       toS16 ((toU16 (x i).im <<< shift) % 65536)⟩
    else z i, 0)

/-- The `__ext_v_shift_right_int32`: remainder loop shifts the signed `int32`
directly (`z[i] = x[i] >> shift`, arithmetic). -/
def __ext_v_shift_right_int32 (z : Nat → Int) (u3 : Int) (x : Nat → Int)
    (len : Nat) (shift : Nat) : (Nat → Int) × Int :=
  (fun i =>
    if i < len / 4 * 4 then srai32 (x i) shift
    else if i < len then asr (x i) shift
    else z i, 0)

def __ext_v_shift_left_int32 (z : Nat → Int) (u3 : Int) (x : Nat → Int)
    (len : Nat) (shift : Nat) : (Nat → Int) × Int :=
  (fun i =>
    if i < len / 4 * 4 then slli32 (x i) shift
    else if i < len then wrap32 (x i * 2 ^ shift)
    else z i, 0)

def __ext_v_shift_right_int16 (z : Nat → Int) (u3 : Int) (x : Nat → Int)
    (len : Nat) (shift : Nat) : (Nat → Int) × Int :=
  (fun i =>
    if i < len / 8 * 8 then srai16 (x i) shift
    else if i < len then asr (x i) shift
    else z i, 0)

def __ext_v_shift_left_int16 (z : Nat → Int) (u3 : Int) (x : Nat → Int)
    (len : Nat) (shift : Nat) : (Nat → Int) × Int :=
  (fun i =>
    if i < len / 8 * 8 then slli16 (x i) shift
    else if i < len then wrap16 (x i * 2 ^ shift)
    else z i, 0)

/-! ### Complex multiply kernels

The vectorized body of `__ext_v_mul_complex16` /
`__ext_v_conj_mul_complex16` / `__ext_v_conj_mul_complex16_int32` acts
independently on each 32-bit lane (one `complex16` per lane); the lane
functions below follow the instruction sequence of the source with the
constants `xmm6 = 0x0000FFFF`, `xmm5 = 0xFFFF0000`, `xmm4 = 0x00010000`. -/

def v_mul_lane (xj yj : complex16) (shift : Nat) : complex16 :=
  let mx := laneOfC16 xj
  let my := laneOfC16 yj
  let ms1 := add32u (xor32u mx 4294901760) 65536
  let ms2 := swapHalves32 mx
  let mre := and32u (toU32 (asr (madd16lane ms1 my) shift)) 65535
  let mim := and32u (toU32 (asr (madd16lane ms2 my) shift)) 65535
  c16OfLane (or32u mre (shl32u mim 16))

def v_conj_mul_lane (xj yj : complex16) (shift : Nat) : complex16 :=
  let mx := laneOfC16 xj
  let my := laneOfC16 yj
  let ms2 := swapHalves32 (add32u (xor32u my 4294901760) 65536)
  let mre := and32u (toU32 (asr (madd16lane my mx) shift)) 65535
  let mim := and32u (toU32 (asr (madd16lane ms2 mx) shift)) 65535
  c16OfLane (or32u mre (shl32u mim 16))

def v_conj_mul_int32_re_lane (xj yj : complex16) : Int :=
  madd16lane (laneOfC16 yj) (laneOfC16 xj)

def v_conj_mul_int32_im_lane (xj yj : complex16) : Int :=
  madd16lane (swapHalves32 (add32u (xor32u (laneOfC16 yj) 4294901760) 65536)) (laneOfC16 xj)

def __ext_v_mul_complex16 (out : Nat → complex16) (lenout : Int) (x : Nat → complex16)
    (len1 : Nat) (y : Nat → complex16) (len2 : Int) (shift : Nat) :
    (Nat → complex16) × Int :=
  (fun i =>
    if i < len1 / 4 * 4 then v_mul_lane (x i) (y i) shift
    else if i < len1 then
      ⟨wrap16 (asr (wrap32 ((x i).re * (y i).re - (x i).im * (y i).im)) shift),
       wrap16 (asr (wrap32 ((x i).re * (y i).im + (x i).im * (y i).re)) shift)⟩
    else out i, 0)

def __ext_v_conj_mul_complex16 (out : Nat → complex16) (lenout : Int) (x : Nat → complex16)
    (len1 : Nat) (y : Nat → complex16) (len2 : Int) (shift : Nat) :
    (Nat → complex16) × Int :=
  (fun i =>
    if i < len1 / 4 * 4 then v_conj_mul_lane (x i) (y i) shift
    else if i < len1 then
      ⟨wrap16 (asr (wrap32 ((x i).re * (y i).re + (x i).im * (y i).im)) shift),
       wrap16 (asr (wrap32 ((x i).im * (y i).re - (x i).re * (y i).im)) shift)⟩
    else out i, 0)

def __ext_v_conj_mul_complex16_int32 (re : Nat → Int) (lenout1 : Int) (im : Nat → Int)
    (lenout2 : Int) (x : Nat → complex16) (len1 : Nat) (y : Nat → complex16)
    (len2 : Int) : ((Nat → Int) × (Nat → Int)) × Int :=
  ((fun i =>
      if i < len1 / 4 * 4 then v_conj_mul_int32_re_lane (x i) (y i)
      else if i < len1 then wrap32 ((x i).re * (y i).re + (x i).im * (y i).im)
      else re i,
    fun i =>
      if i < len1 / 4 * 4 then v_conj_mul_int32_im_lane (x i) (y i)
      else if i < len1 then wrap32 ((x i).im * (y i).re - (x i).re * (y i).im)
      else im i), 0)

/-! ### pack -/

/-- Modelled from the spec: Sora's `saturated_pack` (not under `src/`,
`vector128.h` is platform-only) narrows each 16-bit component to the signed
8-bit range by saturating to `[-128, 127]` rather than wrapping. -/
def saturated_pack8 (v : Int) : Int := max (-128) (min 127 v)

/-- The `__ext_v_pack_complex16_complex8`: the vector loop packs blocks of
`2 * wlen = 8` elements with `saturated_pack`; the remainder loop
(`j = i*2*wlen ..< lenin`) assigns the `int16` components straight into the
`int8` fields, which truncates (wraps). -/
def __ext_v_pack_complex16_complex8 (output : Nat → complex8) (lenout : Int)
    (input : Nat → complex16) (lenin : Nat) : Nat → complex8 :=
  fun j =>
    if j < lenin / 4 / 2 * 8 then
      ⟨saturated_pack8 (input j).re, saturated_pack8 (input j).im⟩
    else if j < lenin then ⟨wrap8 (input j).re, wrap8 (input j).im⟩
    else output j

/-! ### Bit-array kernels

Buffers are byte arrays, modelled as `Nat → Nat` with bytes `< 256`.
`_mm_and_si128` / `_mm_or_si128` / `_mm_xor_si128` / `_mm_andnot_si128` on
16-byte chunks act bytewise, so the 16-byte loop and the trailing byte loop
are written as one per-byte function over `bytelen1 = ceil(inlen1/8)` bytes.
The trailing `outlen = inlen1` writes a by-value parameter and has no
caller-visible effect. -/

def __ext_v_and (output : Nat → Nat) (outlen : Int) (input1 : Nat → Nat) (inlen1 : Nat)
    (input2 : Nat → Nat) (inlen2 : Int) : Nat → Nat :=
  fun j =>
    if j < inlen1 / 8 + (if inlen1 % 8 > 0 then 1 else 0) then input1 j &&& input2 j
    else output j

def __ext_v_andnot (output : Nat → Nat) (outlen : Int) (input1 : Nat → Nat) (inlen1 : Nat)
    (input2 : Nat → Nat) (inlen2 : Int) : Nat → Nat :=
  fun j =>
    if j < inlen1 / 8 + (if inlen1 % 8 > 0 then 1 else 0) then (input1 j ^^^ 255) &&& input2 j
    else output j

def __ext_v_xor (output : Nat → Nat) (outlen : Int) (input1 : Nat → Nat) (inlen1 : Nat)
    (input2 : Nat → Nat) (inlen2 : Int) : Nat → Nat :=
  fun j =>
    if j < inlen1 / 8 + (if inlen1 % 8 > 0 then 1 else 0) then input1 j ^^^ input2 j
    else output j

/-! ### Specialized one-byte bitwise kernels

`__ext_v_and8` / `__ext_v_xor8` / `__ext_v_andnot8` / `__ext_v_or8` write only
byte 0 (`output[0] = input1[0] OP input2[0]`); every length argument,
including `outlen`, is unused (the source comments: "No need to write output
as it is guaranteed by typechecking"). -/

def __ext_v_and8 (output : Nat → Nat) (outlen : Int) (input1 : Nat → Nat) (inlen1 : Int)
    (input2 : Nat → Nat) (inlen2 : Int) : Nat → Nat :=
  fun j => if j = 0 then input1 0 &&& input2 0 else output j

def __ext_v_xor8 (output : Nat → Nat) (outlen : Int) (input1 : Nat → Nat) (inlen1 : Int)
    (input2 : Nat → Nat) (inlen2 : Int) : Nat → Nat :=
  fun j => if j = 0 then input1 0 ^^^ input2 0 else output j

def __ext_v_andnot8 (output : Nat → Nat) (outlen : Int) (input1 : Nat → Nat) (inlen1 : Int)
    (input2 : Nat → Nat) (inlen2 : Int) : Nat → Nat :=
  fun j => if j = 0 then (input1 0 ^^^ 255) &&& input2 0 else output j

def __ext_v_or8 (output : Nat → Nat) (outlen : Int) (input1 : Nat → Nat) (inlen1 : Int)
    (input2 : Nat → Nat) (inlen2 : Int) : Nat → Nat :=
  fun j => if j = 0 then input1 0 ||| input2 0 else output j

/-- Load `n` consecutive bytes starting at offset `k` as one little-endian
unsigned word (the effect of `*(unumW *)(p + k)`). -/
def loadW : Nat → (Nat → Nat) → Nat → Nat
  | 0, _, _ => 0
  | n + 1, f, k => f k + 256 * loadW n f (k + 1)

/-- Store the word `w` as `n` little-endian bytes at offset `k`
(the effect of `*(unumW *)(p + k) = w`). -/
def storeW (n : Nat) (w : Nat) (k : Nat) (f : Nat → Nat) : Nat → Nat :=
  fun j => if k ≤ j ∧ j < k + n then w / 256 ^ (j - k) % 256 else f j

/-- The `__ext_v_or_48`: one 32-bit OR at offset 0 plus one 16-bit OR at offset 4. -/
def __ext_v_or_48 (output input1 input2 : Nat → Nat) : Nat → Nat :=
  storeW 2 (loadW 2 input1 4 ||| loadW 2 input2 4) 4
    (storeW 4 (loadW 4 input1 0 ||| loadW 4 input2 0) 0 output)

/-- The `__ext_v_or_96`: one 64-bit OR plus one 32-bit OR.  The pointer base is
modelled by the extra offset argument `off` (the source is called both at the
buffer start and, from `__ext_v_or_288`, at byte offset 24). -/
def __ext_v_or_96 (output input1 input2 : Nat → Nat) (off : Nat) : Nat → Nat :=
  storeW 4 (loadW 4 input1 (off + 8) ||| loadW 4 input2 (off + 8)) (off + 8)
    (storeW 8 (loadW 8 input1 off ||| loadW 8 input2 off) off output)

/-- The `__ext_v_or_192`: three 64-bit ORs at offsets 0, 8, 16. -/
def __ext_v_or_192 (output input1 input2 : Nat → Nat) : Nat → Nat :=
  storeW 8 (loadW 8 input1 16 ||| loadW 8 input2 16) 16
    (storeW 8 (loadW 8 input1 8 ||| loadW 8 input2 8) 8
      (storeW 8 (loadW 8 input1 0 ||| loadW 8 input2 0) 0 output))

/-- Composition `__ext_v_or_288 = __ext_v_or_192` then `__ext_v_or_96` at byte offset 24. -/
def __ext_v_or_288 (output input1 input2 : Nat → Nat) : Nat → Nat :=
  __ext_v_or_96 (__ext_v_or_192 output input1 input2) input1 input2 24

/-- The `__ext_v_or`: dispatch on the exact bit length, else the generic byte loop
over `(inlen1 + 7) / 8` bytes. -/
def __ext_v_or (output : Nat → Nat) (outlen : Int) (input1 : Nat → Nat) (inlen1 : Nat)
    (input2 : Nat → Nat) (inlen2 : Int) : Nat → Nat :=
  if inlen1 = 48 then __ext_v_or_48 output input1 input2
  else if inlen1 = 96 then __ext_v_or_96 output input1 input2 0
  else if inlen1 = 192 then __ext_v_or_192 output input1 input2
  else if inlen1 = 288 then __ext_v_or_288 output input1 input2
  else fun j => if j < (inlen1 + 7) / 8 then input1 j ||| input2 j else output j

/-! ### FFT / IFFT dispatcher

`sora_ext_lib_fft.hpp` (the `FFTSafe<N>` / `IFFTSafe<N>` backends) is not
under `src/`, so the transform family is a parameter of the embedding:
`FFTSafe n input` is the fixed-size-`n` transform of `input`.  The `Bool`
in the result models the `printf` diagnostic of the `default` branch
(`fft size %d not supported`), which performs no transform. -/

def fftCatalog : List Int :=
  [16, 32, 64, 128, 256, 512, 1024, 2048,
   12, 24, 36, 48, 60, 72, 96, 108, 120, 144, 180, 192, 216, 240, 288, 300,
   324, 360, 384, 432, 480, 540, 576, 600, 648, 720, 768, 864, 900, 960, 972,
   1080, 1152, 1200]

def __ext_sora_fft (FFTSafe : Int → (Nat → complex16) → (Nat → complex16))
    (output : Nat → complex16) (nFFTSize : Int) (input : Nat → complex16) :
    (Nat → complex16) × Bool :=
  if nFFTSize = 16 then (FFTSafe 16 input, false)
  else if nFFTSize = 32 then (FFTSafe 32 input, false)
  else if nFFTSize = 64 then (FFTSafe 64 input, false)
  else if nFFTSize = 128 then (FFTSafe 128 input, false)
  else if nFFTSize = 256 then (FFTSafe 256 input, false)
  else if nFFTSize = 512 then (FFTSafe 512 input, false)
  else if nFFTSize = 1024 then (FFTSafe 1024 input, false)
  else if nFFTSize = 2048 then (FFTSafe 2048 input, false)
  else if nFFTSize = 12 then (FFTSafe 12 input, false)
  else if nFFTSize = 24 then (FFTSafe 24 input, false)
  else if nFFTSize = 36 then (FFTSafe 36 input, false)
  else if nFFTSize = 48 then (FFTSafe 48 input, false)
  else if nFFTSize = 60 then (FFTSafe 60 input, false)
  else if nFFTSize = 72 then (FFTSafe 72 input, false)
  else if nFFTSize = 96 then (FFTSafe 96 input, false)
  else if nFFTSize = 108 then (FFTSafe 108 input, false)
  else if nFFTSize = 120 then (FFTSafe 120 input, false)
  else if nFFTSize = 144 then (FFTSafe 144 input, false)
  else if nFFTSize = 180 then (FFTSafe 180 input, false)
  else if nFFTSize = 192 then (FFTSafe 192 input, false)
  else if nFFTSize = 216 then (FFTSafe 216 input, false)
  else if nFFTSize = 240 then (FFTSafe 240 input, false)
  else if nFFTSize = 288 then (FFTSafe 288 input, false)
  else if nFFTSize = 300 then (FFTSafe 300 input, false)
  else if nFFTSize = 324 then (FFTSafe 324 input, false)
  else if nFFTSize = 360 then (FFTSafe 360 input, false)
  else if nFFTSize = 384 then (FFTSafe 384 input, false)
  else if nFFTSize = 432 then (FFTSafe 432 input, false)
  else if nFFTSize = 480 then (FFTSafe 480 input, false)
  else if nFFTSize = 540 then (FFTSafe 540 input, false)
  else if nFFTSize = 576 then (FFTSafe 576 input, false)
  else if nFFTSize = 600 then (FFTSafe 600 input, false)
  else if nFFTSize = 648 then (FFTSafe 648 input, false)
  else if nFFTSize = 720 then (FFTSafe 720 input, false)
  else if nFFTSize = 768 then (FFTSafe 768 input, false)
  else if nFFTSize = 864 then (FFTSafe 864 input, false)
  else if nFFTSize = 900 then (FFTSafe 900 input, false)
  else if nFFTSize = 960 then (FFTSafe 960 input, false)
  else if nFFTSize = 972 then (FFTSafe 972 input, false)
  else if nFFTSize = 1080 then (FFTSafe 1080 input, false)
  else if nFFTSize = 1152 then (FFTSafe 1152 input, false)
  else if nFFTSize = 1200 then (FFTSafe 1200 input, false)
  else (output, true)

def __ext_sora_ifft (IFFTSafe : Int → (Nat → complex16) → (Nat → complex16))
    (output : Nat → complex16) (nFFTSize : Int) (input : Nat → complex16) :
    (Nat → complex16) × Bool :=
  if nFFTSize = 16 then (IFFTSafe 16 input, false)
  else if nFFTSize = 32 then (IFFTSafe 32 input, false)
  else if nFFTSize = 64 then (IFFTSafe 64 input, false)
  else if nFFTSize = 128 then (IFFTSafe 128 input, false)
  else if nFFTSize = 256 then (IFFTSafe 256 input, false)
  else if nFFTSize = 512 then (IFFTSafe 512 input, false)
  else if nFFTSize = 1024 then (IFFTSafe 1024 input, false)
  else if nFFTSize = 2048 then (IFFTSafe 2048 input, false)
  else if nFFTSize = 12 then (IFFTSafe 12 input, false)
  else if nFFTSize = 24 then (IFFTSafe 24 input, false)
  else if nFFTSize = 36 then (IFFTSafe 36 input, false)
  else if nFFTSize = 48 then (IFFTSafe 48 input, false)
  else if nFFTSize = 60 then (IFFTSafe 60 input, false)
  else if nFFTSize = 72 then (IFFTSafe 72 input, false)
  else if nFFTSize = 96 then (IFFTSafe 96 input, false)
  else if nFFTSize = 108 then (IFFTSafe 108 input, false)
  else if nFFTSize = 120 then (IFFTSafe 120 input, false)
  else if nFFTSize = 144 then (IFFTSafe 144 input, false)
  else if nFFTSize = 180 then (IFFTSafe 180 input, false)
  else if nFFTSize = 192 then (IFFTSafe 192 input, false)
  else if nFFTSize = 216 then (IFFTSafe 216 input, false)
  else if nFFTSize = 240 then (IFFTSafe 240 input, false)
  else if nFFTSize = 288 then (IFFTSafe 288 input, false)
  else if nFFTSize = 300 then (IFFTSafe 300 input, false)
  else if nFFTSize = 324 then (IFFTSafe 324 input, false)
  else if nFFTSize = 360 then (IFFTSafe 360 input, false)
  else if nFFTSize = 384 then (IFFTSafe 384 input, false)
  else if nFFTSize = 432 then (IFFTSafe 432 input, false)
  else if nFFTSize = 480 then (IFFTSafe 480 input, false)
  else if nFFTSize = 540 then (IFFTSafe 540 input, false)
  else if nFFTSize = 576 then (IFFTSafe 576 input, false)
  else if nFFTSize = 600 then (IFFTSafe 600 input, false)
  else if nFFTSize = 648 then (IFFTSafe 648 input, false)
  else if nFFTSize = 720 then (IFFTSafe 720 input, false)
  else if nFFTSize = 768 then (IFFTSafe 768 input, false)
  else if nFFTSize = 864 then (IFFTSafe 864 input, false)
  else if nFFTSize = 900 then (IFFTSafe 900 input, false)
  else if nFFTSize = 960 then (IFFTSafe 960 input, false)
  else if nFFTSize = 972 then (IFFTSafe 972 input, false)
  else if nFFTSize = 1080 then (IFFTSafe 1080 input, false)
  else if nFFTSize = 1152 then (IFFTSafe 1152 input, false)
  else if nFFTSize = 1200 then (IFFTSafe 1200 input, false)
  else (output, true)

/-! ### Random fill -/

/-- The `__ext_populate_rand_array`: `srand(time(NULL))` seeds the PRNG (the
resulting stream of `rand()` values is abstracted as the parameter `rand`);
bytes `0 ..< siz / 8` receive `(unsigned char) rand()`. -/
def __ext_populate_rand_array (rand : Nat → Nat) (arr : Nat → Nat) (siz : Nat) :
    (Nat → Nat) × Int :=
  (fun i => if i < siz / 8 then rand i % 256 else arr i, 0)

/-! ### Scalar reference implementations (spec side)

The spec (§4.1, §8) demands that each lane-vectorized kernel agree
bit-identically with a naive scalar elementwise implementation applied to all
`len` elements.  These references apply the scalar per-element C semantics of
each operation uniformly; for the shifts the spec prescribes *arithmetic*
(sign-preserving) right shift. -/

def ref_v_add_complex16 (c : Nat → complex16) (len : Nat) (a b : Nat → complex16) :
    Nat → complex16 :=
  fun i =>
    if i < len then ⟨wrap16 ((a i).re + (b i).re), wrap16 ((a i).im + (b i).im)⟩ else c i

def ref_v_add_complex32 (c : Nat → complex32) (len : Nat) (a b : Nat → complex32) :
    Nat → complex32 :=
  fun i =>
    if i < len then ⟨wrap32 ((a i).re + (b i).re), wrap32 ((a i).im + (b i).im)⟩ else c i

def ref_v_add_int16 (c : Nat → Int) (len : Nat) (a b : Nat → Int) : Nat → Int :=
  fun i => if i < len then wrap16 (a i + b i) else c i

def ref_v_add_int32 (c : Nat → Int) (len : Nat) (a b : Nat → Int) : Nat → Int :=
  fun i => if i < len then wrap32 (a i + b i) else c i

def ref_v_sub_complex16 (c : Nat → complex16) (len : Nat) (a b : Nat → complex16) :
    Nat → complex16 :=
  fun i =>
    if i < len then ⟨wrap16 ((a i).re - (b i).re), wrap16 ((a i).im - (b i).im)⟩ else c i

def ref_v_sub_complex32 (c : Nat → complex32) (len : Nat) (a b : Nat → complex32) :
    Nat → complex32 :=
  fun i =>
    if i < len then ⟨wrap32 ((a i).re - (b i).re), wrap32 ((a i).im - (b i).im)⟩ else c i

def ref_v_sub_int16 (c : Nat → Int) (len : Nat) (a b : Nat → Int) : Nat → Int :=
  fun i => if i < len then wrap16 (a i - b i) else c i

def ref_v_sub_int32 (c : Nat → Int) (len : Nat) (a b : Nat → Int) : Nat → Int :=
  fun i => if i < len then wrap32 (a i - b i) else c i

def ref_v_shift_right_complex16 (z : Nat → complex16) (x : Nat → complex16)
    (len : Nat) (shift : Nat) : Nat → complex16 :=
  fun i => if i < len then ⟨asr (x i).re shift, asr (x i).im shift⟩ else z i

def ref_v_shift_right_complex32 (z : Nat → complex32) (x : Nat → complex32)
    (len : Nat) (shift : Nat) : Nat → complex32 :=
  fun i => if i < len then ⟨asr (x i).re shift, asr (x i).im shift⟩ else z i

def ref_v_shift_right_int16 (z : Nat → Int) (x : Nat → Int) (len : Nat) (shift : Nat) :
    Nat → Int :=
  fun i => if i < len then asr (x i) shift else z i

def ref_v_shift_right_int32 (z : Nat → Int) (x : Nat → Int) (len : Nat) (shift : Nat) :
    Nat → Int :=
  fun i => if i < len then asr (x i) shift else z i

def ref_v_shift_left_complex16 (z : Nat → complex16) (x : Nat → complex16)
    (len : Nat) (shift : Nat) : Nat → complex16 :=
  fun i =>
    if i < len then ⟨wrap16 ((x i).re * 2 ^ shift), wrap16 ((x i).im * 2 ^ shift)⟩ else z i

def ref_v_shift_left_complex32 (z : Nat → complex32) (x : Nat → complex32)
    (len : Nat) (shift : Nat) : Nat → complex32 :=
  fun i =>
    if i < len then ⟨wrap32 ((x i).re * 2 ^ shift), wrap32 ((x i).im * 2 ^ shift)⟩ else z i

def ref_v_shift_left_int16 (z : Nat → Int) (x : Nat → Int) (len : Nat) (shift : Nat) :
    Nat → Int :=
  fun i => if i < len then wrap16 (x i * 2 ^ shift) else z i

def ref_v_shift_left_int32 (z : Nat → Int) (x : Nat → Int) (len : Nat) (shift : Nat) :
    Nat → Int :=
  fun i => if i < len then wrap32 (x i * 2 ^ shift) else z i

def ref_v_mul_complex16 (out : Nat → complex16) (x : Nat → complex16) (len1 : Nat)
    (y : Nat → complex16) (shift : Nat) : Nat → complex16 :=
  fun i =>
    if i < len1 then
      ⟨wrap16 (asr (wrap32 ((x i).re * (y i).re - (x i).im * (y i).im)) shift),
       wrap16 (asr (wrap32 ((x i).re * (y i).im + (x i).im * (y i).re)) shift)⟩
    else out i

def ref_v_conj_mul_complex16 (out : Nat → complex16) (x : Nat → complex16) (len1 : Nat)
    (y : Nat → complex16) (shift : Nat) : Nat → complex16 :=
  fun i =>
    if i < len1 then
      ⟨wrap16 (asr (wrap32 ((x i).re * (y i).re + (x i).im * (y i).im)) shift),
       wrap16 (asr (wrap32 ((x i).im * (y i).re - (x i).re * (y i).im)) shift)⟩
    else out i

def ref_v_conj_mul_int32_re (re : Nat → Int) (x : Nat → complex16) (len1 : Nat)
    (y : Nat → complex16) : Nat → Int :=
  fun i => if i < len1 then wrap32 ((x i).re * (y i).re + (x i).im * (y i).im) else re i

def ref_v_conj_mul_int32_im (im : Nat → Int) (x : Nat → complex16) (len1 : Nat)
    (y : Nat → complex16) : Nat → Int :=
  fun i => if i < len1 then wrap32 ((x i).im * (y i).re - (x i).re * (y i).im) else im i

end Ziria

namespace Ziria

/-! ### Generic facts about `Nat` bitwise operations on split values

`Nat.bitwise` operations distribute over the base-`2^w` digit decomposition;
these are the master lemmas used to evaluate the 128-bit bitwise intrinsics
on 16-bit halves of 32-bit lanes (and on bytes, for the bit-array kernels). -/

theorem split_or (w lo1 hi1 lo2 hi2 : Nat) (h1 : lo1 < 2 ^ w) (h2 : lo2 < 2 ^ w) :
    (lo1 + 2 ^ w * hi1) ||| (lo2 + 2 ^ w * hi2) = (lo1 ||| lo2) + 2 ^ w * (hi1 ||| hi2) := by
  apply Nat.eq_of_testBit_eq
  intro i
  have hor : lo1 ||| lo2 < 2 ^ w := Nat.or_lt_two_pow h1 h2
  rw [Nat.testBit_or]
  rw [Nat.add_comm lo1, Nat.add_comm lo2, Nat.add_comm (lo1 ||| lo2)]
  rw [Nat.testBit_mul_pow_two_add hi1 h1, Nat.testBit_mul_pow_two_add hi2 h2,
    Nat.testBit_mul_pow_two_add (hi1 ||| hi2) hor]
  by_cases h : i < w
  · simp [h, Nat.testBit_or]
  · simp [h, Nat.testBit_or]

theorem split_xor (w lo1 hi1 lo2 hi2 : Nat) (h1 : lo1 < 2 ^ w) (h2 : lo2 < 2 ^ w) :
    (lo1 + 2 ^ w * hi1) ^^^ (lo2 + 2 ^ w * hi2) = (lo1 ^^^ lo2) + 2 ^ w * (hi1 ^^^ hi2) := by
  apply Nat.eq_of_testBit_eq
  intro i
  have hxor : lo1 ^^^ lo2 < 2 ^ w := Nat.xor_lt_two_pow h1 h2
  rw [Nat.testBit_xor]
  rw [Nat.add_comm lo1, Nat.add_comm lo2, Nat.add_comm (lo1 ^^^ lo2)]
  rw [Nat.testBit_mul_pow_two_add hi1 h1, Nat.testBit_mul_pow_two_add hi2 h2,
    Nat.testBit_mul_pow_two_add (hi1 ^^^ hi2) hxor]
  by_cases h : i < w
  · simp [h, Nat.testBit_xor]
  · simp [h, Nat.testBit_xor]

/-- XOR with an all-ones mask is complement within the mask width. -/
theorem xor_all_ones (n : Nat) : ∀ u : Nat, u < 2 ^ n → u ^^^ (2 ^ n - 1) = 2 ^ n - 1 - u := by
  induction n with
  | zero => intro u hu; interval_cases u; rfl
  | succ n ih =>
    intro u hu
    have hpow : (2 : Nat) ^ (n + 1) = 2 * 2 ^ n := by rw [pow_succ]; ring
    have hp : (0 : Nat) < 2 ^ n := Nat.two_pow_pos n
    have hmask : (2 : Nat) ^ (n + 1) - 1 = 1 + 2 * (2 ^ n - 1) := by omega
    have hu2 : u = u % 2 + 2 * (u / 2) := (Nat.mod_add_div u 2).symm
    have hsplit := split_xor 1 (u % 2) (u / 2) 1 (2 ^ n - 1)
      (Nat.mod_lt u (by norm_num)) (by norm_num)
    have hdiv : u / 2 < 2 ^ n := by omega
    have hih := ih (u / 2) hdiv
    rw [hmask]
    nth_rewrite 1 [hu2]
    have h1 : (2 : Nat) ^ 1 = 2 := by norm_num
    rw [h1] at hsplit
    rw [hsplit, hih]
    have hb : u % 2 = 0 ∨ u % 2 = 1 := Nat.mod_two_eq_zero_or_one u
    rcases hb with hb | hb
    · rw [hb]; norm_num; omega
    · rw [hb]; norm_num; omega

/-! ### Signed/unsigned lane view arithmetic -/

theorem toU16_lt (v : Int) : toU16 v < 65536 := by unfold toU16; omega

theorem toU32_lt (v : Int) : toU32 v < 4294967296 := by unfold toU32; omega

theorem toS16_toU16 (v : Int) : toS16 (toU16 v) = wrap16 v := by
  unfold toS16 toU16 wrap16; split <;> omega

theorem toS32_toU32 (v : Int) : toS32 (toU32 v) = wrap32 v := by
  unfold toS32 toU32 wrap32; split <;> omega

theorem wrap16_eq_of_inRange (v : Int) (h : inRange16 v) : wrap16 v = v := by
  unfold wrap16; unfold inRange16 at h; omega

theorem wrap32_eq_of_inRange (v : Int) (h : inRange32 v) : wrap32 v = v := by
  unfold wrap32; unfold inRange32 at h; omega

theorem wrap16_inRange (v : Int) : inRange16 (wrap16 v) := by
  unfold wrap16 inRange16; omega

theorem wrap32_inRange (v : Int) : inRange32 (wrap32 v) := by
  unfold wrap32 inRange32; omega

theorem toU16_neg (v : Int) : toU16 (-v) = (65536 - toU16 v) % 65536 := by
  unfold toU16; omega

theorem toS16_toU32_mod (v : Int) : toS16 (toU32 v % 65536) = wrap16 v := by
  unfold toS16 toU32 wrap16; split <;> omega

/-- Arithmetic right shift stays in the `int32` range. -/
theorem asr_inRange32 (v : Int) (s : Nat) (h : inRange32 v) : inRange32 (asr v s) := by
  unfold asr; unfold inRange32 at h ⊢
  have hd : (0 : Int) < 2 ^ s := by positivity
  have h1 : (1 : Int) ≤ 2 ^ s := hd
  constructor
  · rw [Int.le_ediv_iff_mul_le hd]
    nlinarith [h.1]
  · rw [Int.ediv_lt_iff_lt_mul hd]
    nlinarith [h.2]

theorem lo_half (l h : Nat) (hl : l < 65536) : (l + 65536 * h) % 65536 = l := by omega

theorem hi_half (l h : Nat) (hl : l < 65536) : (l + 65536 * h) / 65536 = h := by omega

/-- The word-negation idiom `(v ^ 0xFFFF0000) + 0x00010000` of the multiply
kernels negates (two's complement, wrapping) the high 16-bit half of a lane. -/
theorem negHi32 (r s : Int) :
    add32u (xor32u (toU16 r + 65536 * toU16 s) 4294901760) 65536
      = toU16 r + 65536 * toU16 (-s) := by
  have hr := toU16_lt r
  have hs := toU16_lt s
  have h := split_xor 16 (toU16 r) (toU16 s) 0 65535 (by norm_num [hr]) (by norm_num)
  have h2 := xor_all_ones 16 (toU16 s) (by norm_num [hs])
  norm_num at h h2
  unfold xor32u add32u
  rw [h, h2, toU16_neg]
  omega

theorem swapHalves32_split (l h : Nat) (hl : l < 65536) (hh : h < 65536) :
    swapHalves32 (l + 65536 * h) = h + 65536 * l := by
  unfold swapHalves32
  rw [lo_half l h hl, hi_half l h hl]
  omega

theorem madd16lane_split (r1 s1 r2 s2 : Nat) (h1 : r1 < 65536) (h2 : s1 < 65536)
    (h3 : r2 < 65536) (h4 : s2 < 65536) :
    madd16lane (r1 + 65536 * s1) (r2 + 65536 * s2)
      = wrap32 (toS16 r1 * toS16 r2 + toS16 s1 * toS16 s2) := by
  unfold madd16lane
  rw [lo_half r1 s1 h1, hi_half r1 s1 h1, lo_half r2 s2 h3, hi_half r2 s2 h3,
    Nat.mod_eq_of_lt h2, Nat.mod_eq_of_lt h4]

/-- Reassembling a lane from a masked low half and a shifted masked high half
(the `and xmm6` / `slli 16` / `or` tail of the multiply kernels). -/
theorem combine_lanes (A B : Int) :
    c16OfLane (or32u (and32u (toU32 A) 65535) (shl32u (and32u (toU32 B) 65535) 16))
      = ⟨wrap16 A, wrap16 B⟩ := by
  have m16 : (65535 : Nat) = 2 ^ 16 - 1 := by norm_num
  have hA : and32u (toU32 A) 65535 = toU32 A % 65536 := by
    unfold and32u; rw [m16, Nat.and_pow_two_sub_one_eq_mod]
  have hB : and32u (toU32 B) 65535 = toU32 B % 65536 := by
    unfold and32u; rw [m16, Nat.and_pow_two_sub_one_eq_mod]
  rw [hA, hB]
  have ha : toU32 A % 65536 < 65536 := Nat.mod_lt _ (by norm_num)
  have hb : toU32 B % 65536 < 65536 := Nat.mod_lt _ (by norm_num)
  have hshl : shl32u (toU32 B % 65536) 16 = 65536 * (toU32 B % 65536) := by
    unfold shl32u
    have : toU32 B % 65536 * 2 ^ 16 < 4294967296 := by omega
    rw [Nat.mod_eq_of_lt this]; ring
  rw [hshl]
  have hor : or32u (toU32 A % 65536) (65536 * (toU32 B % 65536))
      = toU32 A % 65536 + 65536 * (toU32 B % 65536) := by
    unfold or32u
    have h := split_or 16 (toU32 A % 65536) 0 0 (toU32 B % 65536)
      (by norm_num [ha]) (by norm_num)
    norm_num at h
    exact h
  rw [hor]
  unfold c16OfLane
  rw [lo_half _ _ ha, hi_half _ _ ha, Nat.mod_eq_of_lt hb,
    toS16_toU32_mod, toS16_toU32_mod]

end Ziria

namespace Ziria

/-! ### Lane-level characterizations of the multiply kernels -/

theorem neg_inRange16 (v : Int) (h : inRange16 v) (hne : v ≠ -32768) : inRange16 (-v) := by
  unfold inRange16 at h ⊢; omega

theorem toS16_toU16_of_inRange (v : Int) (h : inRange16 v) : toS16 (toU16 v) = v := by
  rw [toS16_toU16]; exact wrap16_eq_of_inRange v h

theorem v_mul_lane_eq (x y : complex16) (s : Nat)
    (hx : inRangeC16 x) (hy : inRangeC16 y) (him : x.im ≠ -32768) :
    v_mul_lane x y s =
      ⟨wrap16 (asr (wrap32 (x.re * y.re - x.im * y.im)) s),
       wrap16 (asr (wrap32 (x.re * y.im + x.im * y.re)) s)⟩ := by
  obtain ⟨hxr, hxi⟩ := hx
  obtain ⟨hyr, hyi⟩ := hy
  simp only [v_mul_lane, laneOfC16]
  rw [negHi32 x.re x.im]
  rw [swapHalves32_split _ _ (toU16_lt _) (toU16_lt _)]
  rw [madd16lane_split _ _ _ _ (toU16_lt _) (toU16_lt _) (toU16_lt _) (toU16_lt _)]
  rw [madd16lane_split _ _ _ _ (toU16_lt _) (toU16_lt _) (toU16_lt _) (toU16_lt _)]
  rw [toS16_toU16_of_inRange _ hxr, toS16_toU16_of_inRange _ hxi,
    toS16_toU16_of_inRange _ hyr, toS16_toU16_of_inRange _ hyi,
    toS16_toU16_of_inRange _ (neg_inRange16 _ hxi him)]
  have e1 : x.re * y.re + -x.im * y.im = x.re * y.re - x.im * y.im := by ring
  have e2 : x.im * y.re + x.re * y.im = x.re * y.im + x.im * y.re := by ring
  rw [e1, e2, combine_lanes]

theorem v_conj_mul_lane_eq (x y : complex16) (s : Nat)
    (hx : inRangeC16 x) (hy : inRangeC16 y) (him : y.im ≠ -32768) :
    v_conj_mul_lane x y s =
      ⟨wrap16 (asr (wrap32 (x.re * y.re + x.im * y.im)) s),
       wrap16 (asr (wrap32 (x.im * y.re - x.re * y.im)) s)⟩ := by
  obtain ⟨hxr, hxi⟩ := hx
  obtain ⟨hyr, hyi⟩ := hy
  simp only [v_conj_mul_lane, laneOfC16]
  rw [negHi32 y.re y.im]
  rw [swapHalves32_split _ _ (toU16_lt _) (toU16_lt _)]
  rw [madd16lane_split _ _ _ _ (toU16_lt _) (toU16_lt _) (toU16_lt _) (toU16_lt _)]
  rw [madd16lane_split _ _ _ _ (toU16_lt _) (toU16_lt _) (toU16_lt _) (toU16_lt _)]
  rw [toS16_toU16_of_inRange _ hxr, toS16_toU16_of_inRange _ hxi,
    toS16_toU16_of_inRange _ hyr, toS16_toU16_of_inRange _ hyi,
    toS16_toU16_of_inRange _ (neg_inRange16 _ hyi him)]
  have e1 : y.re * x.re + y.im * x.im = x.re * y.re + x.im * y.im := by ring
  have e2 : -y.im * x.re + y.re * x.im = x.im * y.re - x.re * y.im := by ring
  rw [e1, e2, combine_lanes]

theorem v_conj_mul_int32_re_lane_eq (x y : complex16)
    (hx : inRangeC16 x) (hy : inRangeC16 y) :
    v_conj_mul_int32_re_lane x y = wrap32 (x.re * y.re + x.im * y.im) := by
  obtain ⟨hxr, hxi⟩ := hx
  obtain ⟨hyr, hyi⟩ := hy
  simp only [v_conj_mul_int32_re_lane, laneOfC16]
  rw [madd16lane_split _ _ _ _ (toU16_lt _) (toU16_lt _) (toU16_lt _) (toU16_lt _)]
  rw [toS16_toU16_of_inRange _ hxr, toS16_toU16_of_inRange _ hxi,
    toS16_toU16_of_inRange _ hyr, toS16_toU16_of_inRange _ hyi]
  have e1 : y.re * x.re + y.im * x.im = x.re * y.re + x.im * y.im := by ring
  rw [e1]

theorem v_conj_mul_int32_im_lane_eq (x y : complex16)
    (hx : inRangeC16 x) (hy : inRangeC16 y) (him : y.im ≠ -32768) :
    v_conj_mul_int32_im_lane x y = wrap32 (x.im * y.re - x.re * y.im) := by
  obtain ⟨hxr, hxi⟩ := hx
  obtain ⟨hyr, hyi⟩ := hy
  simp only [v_conj_mul_int32_im_lane, laneOfC16]
  rw [negHi32 y.re y.im]
  rw [swapHalves32_split _ _ (toU16_lt _) (toU16_lt _)]
  rw [madd16lane_split _ _ _ _ (toU16_lt _) (toU16_lt _) (toU16_lt _) (toU16_lt _)]
  rw [toS16_toU16_of_inRange _ hxr, toS16_toU16_of_inRange _ hxi,
    toS16_toU16_of_inRange _ hyr,
    toS16_toU16_of_inRange _ (neg_inRange16 _ hyi him)]
  have e1 : -y.im * x.re + y.re * x.im = x.im * y.re - x.re * y.im := by ring
  rw [e1]

/-! ### Lane-level characterizations of the shift kernels -/

theorem srai16_eq (v : Int) (s : Nat) (h : inRange16 v) : srai16 v s = asr v s := by
  unfold srai16; rw [toS16_toU16, wrap16_eq_of_inRange v h]

theorem srai32_eq (v : Int) (s : Nat) (h : inRange32 v) : srai32 v s = asr v s := by
  unfold srai32; rw [toS32_toU32, wrap32_eq_of_inRange v h]

theorem toS16_mod_cast (n : Nat) (v : Int) (h : (n : Int) % 65536 = v % 65536) :
    toS16 n = wrap16 v := by
  unfold toS16 wrap16
  split <;> omega

theorem toS32_mod_cast (n : Nat) (v : Int) (h : (n : Int) % 4294967296 = v % 4294967296) :
    toS32 n = wrap32 v := by
  unfold toS32 wrap32
  split <;> omega

theorem slli16_eq (v : Int) (s : Nat) : slli16 v s = wrap16 (v * 2 ^ s) := by
  unfold slli16
  apply toS16_mod_cast
  have hu : Int.ModEq 65536 (toU16 v) v := by
    show ((toU16 v : Int)) % 65536 = v % 65536
    unfold toU16; omega
  have hmul : ((toU16 v : Int) * 2 ^ s) % 65536 = (v * 2 ^ s) % 65536 :=
    hu.mul_right (2 ^ s)
  have haN : ((toU16 v * 2 ^ s : Nat) : Int) = (toU16 v : Int) * 2 ^ s := by push_cast; ring
  have hN : (((toU16 v * 2 ^ s) % 65536 : Nat) : Int)
      = ((toU16 v * 2 ^ s : Nat) : Int) % 65536 := by omega
  rw [hN, haN, Int.emod_emod_of_dvd _ dvd_rfl]
  exact hmul

theorem slli32_eq (v : Int) (s : Nat) : slli32 v s = wrap32 (v * 2 ^ s) := by
  unfold slli32
  apply toS32_mod_cast
  have hu : Int.ModEq 4294967296 (toU32 v) v := by
    show ((toU32 v : Int)) % 4294967296 = v % 4294967296
    unfold toU32; omega
  have hmul : ((toU32 v : Int) * 2 ^ s) % 4294967296 = (v * 2 ^ s) % 4294967296 :=
    hu.mul_right (2 ^ s)
  have haN : ((toU32 v * 2 ^ s : Nat) : Int) = (toU32 v : Int) * 2 ^ s := by push_cast; ring
  have hN : (((toU32 v * 2 ^ s) % 4294967296 : Nat) : Int)
      = ((toU32 v * 2 ^ s : Nat) : Int) % 4294967296 := by omega
  rw [hN, haN, Int.emod_emod_of_dvd _ dvd_rfl]
  exact hmul

/-- The remainder loop's unsigned `>>` agrees with the arithmetic shift
exactly on nonnegative values. -/
theorem lsr16_eq_asr (v : Int) (s : Nat) (h : inRange16 v) (hpos : 0 ≤ v) :
    toS16 (toU16 v >>> s) = asr v s := by
  unfold inRange16 at h
  have h1 : toU16 v = v.toNat := by unfold toU16; omega
  have h2 : toU16 v >>> s = v.toNat / 2 ^ s := by rw [h1, Nat.shiftRight_eq_div_pow]
  have h3 : v.toNat / 2 ^ s < 32768 := by
    have := Nat.div_le_self v.toNat (2 ^ s); omega
  have h4 : ((v.toNat / 2 ^ s : Nat) : Int) = v / 2 ^ s := by
    push_cast [Int.ofNat_div, Int.toNat_of_nonneg hpos]; ring_nf
  unfold toS16 asr
  rw [h2, Nat.mod_eq_of_lt (by omega), if_pos h3, h4]
  have h5 : (0 : Int) ≤ v / 2 ^ s := Int.ediv_nonneg hpos (by positivity)
  have h6 : (v / 2 ^ s : Int) < 32768 := by rw [← h4]; exact_mod_cast h3
  omega

theorem lsr32_eq_asr (v : Int) (s : Nat) (h : inRange32 v) (hpos : 0 ≤ v) :
    toS32 (toU32 v >>> s) = asr v s := by
  unfold inRange32 at h
  have h1 : toU32 v = v.toNat := by unfold toU32; omega
  have h2 : toU32 v >>> s = v.toNat / 2 ^ s := by rw [h1, Nat.shiftRight_eq_div_pow]
  have h3 : v.toNat / 2 ^ s < 2147483648 := by
    have := Nat.div_le_self v.toNat (2 ^ s); omega
  have h4 : ((v.toNat / 2 ^ s : Nat) : Int) = v / 2 ^ s := by
    push_cast [Int.ofNat_div, Int.toNat_of_nonneg hpos]; ring_nf
  unfold toS32 asr
  rw [h2, Nat.mod_eq_of_lt (by omega), if_pos h3, h4]
  have h5 : (0 : Int) ≤ v / 2 ^ s := Int.ediv_nonneg hpos (by positivity)
  have h6 : (v / 2 ^ s : Int) < 2147483648 := by rw [← h4]; exact_mod_cast h3
  omega

end Ziria

namespace Ziria

/-! ### Kernel-level equivalences with the scalar references -/

theorem v_add_complex16_spec (c : Nat → complex16) (len : Nat) (a b : Nat → complex16)
    (u2 u1 : Int) :
    (__ext_v_add_complex16 c len a u2 b u1).1 = ref_v_add_complex16 c len a b := by
  funext i
  have hle : len / 4 * 4 ≤ len := Nat.div_mul_le_self len 4
  unfold __ext_v_add_complex16 ref_v_add_complex16
  dsimp only
  split_ifs with h1 h2 <;> first | rfl | (exfalso; omega)

theorem v_add_complex32_spec (c : Nat → complex32) (len : Nat) (a b : Nat → complex32)
    (u2 u1 : Int) :
    (__ext_v_add_complex32 c len a u2 b u1).1 = ref_v_add_complex32 c len a b := by
  funext i
  have hle : len / 2 * 2 ≤ len := Nat.div_mul_le_self len 2
  unfold __ext_v_add_complex32 ref_v_add_complex32
  dsimp only
  split_ifs with h1 h2 <;> first | rfl | (exfalso; omega)

theorem v_add_int16_spec (c : Nat → Int) (len : Nat) (a b : Nat → Int) (u2 u1 : Int) :
    (__ext_v_add_int16 c len a u2 b u1).1 = ref_v_add_int16 c len a b := by
  funext i
  have hle : len / 8 * 8 ≤ len := Nat.div_mul_le_self len 8
  unfold __ext_v_add_int16 ref_v_add_int16
  dsimp only
  split_ifs with h1 h2 <;> first | rfl | (exfalso; omega)

theorem v_add_int32_spec (c : Nat → Int) (len : Nat) (a b : Nat → Int) (u2 u1 : Int) :
    (__ext_v_add_int32 c len a u2 b u1).1 = ref_v_add_int32 c len a b := by
  funext i
  have hle : len / 4 * 4 ≤ len := Nat.div_mul_le_self len 4
  unfold __ext_v_add_int32 ref_v_add_int32
  dsimp only
  split_ifs with h1 h2 <;> first | rfl | (exfalso; omega)

theorem v_sub_complex16_spec (c : Nat → complex16) (len : Nat) (a b : Nat → complex16)
    (u2 u1 : Int) :
    (__ext_v_sub_complex16 c len a u2 b u1).1 = ref_v_sub_complex16 c len a b := by
  funext i
  have hle : len / 4 * 4 ≤ len := Nat.div_mul_le_self len 4
  unfold __ext_v_sub_complex16 ref_v_sub_complex16
  dsimp only
  split_ifs with h1 h2 <;> first | rfl | (exfalso; omega)

theorem v_sub_complex32_spec (c : Nat → complex32) (len : Nat) (a b : Nat → complex32)
    (u2 u1 : Int) :
    (__ext_v_sub_complex32 c len a u2 b u1).1 = ref_v_sub_complex32 c len a b := by
  funext i
  have hle : len / 2 * 2 ≤ len := Nat.div_mul_le_self len 2
  unfold __ext_v_sub_complex32 ref_v_sub_complex32
  dsimp only
  split_ifs with h1 h2 <;> first | rfl | (exfalso; omega)

theorem v_sub_int16_spec (c : Nat → Int) (len : Nat) (a b : Nat → Int) (u2 u1 : Int) :
    (__ext_v_sub_int16 c len a u2 b u1).1 = ref_v_sub_int16 c len a b := by
  funext i
  have hle : len / 8 * 8 ≤ len := Nat.div_mul_le_self len 8
  unfold __ext_v_sub_int16 ref_v_sub_int16
  dsimp only
  split_ifs with h1 h2 <;> first | rfl | (exfalso; omega)

theorem v_sub_int32_spec (c : Nat → Int) (len : Nat) (a b : Nat → Int) (u2 u1 : Int) :
    (__ext_v_sub_int32 c len a u2 b u1).1 = ref_v_sub_int32 c len a b := by
  funext i
  have hle : len / 4 * 4 ≤ len := Nat.div_mul_le_self len 4
  unfold __ext_v_sub_int32 ref_v_sub_int32
  dsimp only
  split_ifs with h1 h2 <;> first | rfl | (exfalso; omega)

theorem v_shift_left_int16_spec (z : Nat → Int) (u3 : Int) (x : Nat → Int)
    (len : Nat) (sh : Nat) :
    (__ext_v_shift_left_int16 z u3 x len sh).1 = ref_v_shift_left_int16 z x len sh := by
  funext i
  have hle : len / 8 * 8 ≤ len := Nat.div_mul_le_self len 8
  unfold __ext_v_shift_left_int16 ref_v_shift_left_int16
  dsimp only
  split_ifs with h1 h2 <;> first | rfl | (exfalso; omega) | rw [slli16_eq]

theorem v_shift_left_int32_spec (z : Nat → Int) (u3 : Int) (x : Nat → Int)
    (len : Nat) (sh : Nat) :
    (__ext_v_shift_left_int32 z u3 x len sh).1 = ref_v_shift_left_int32 z x len sh := by
  funext i
  have hle : len / 4 * 4 ≤ len := Nat.div_mul_le_self len 4
  unfold __ext_v_shift_left_int32 ref_v_shift_left_int32
  dsimp only
  split_ifs with h1 h2 <;> first | rfl | (exfalso; omega) | rw [slli32_eq]

theorem v_shift_left_complex16_spec (z : Nat → complex16) (u3 : Int) (x : Nat → complex16)
    (len : Nat) (sh : Nat) :
    (__ext_v_shift_left_complex16 z u3 x len sh).1 = ref_v_shift_left_complex16 z x len sh := by
  funext i
  have hle : len / 4 * 4 ≤ len := Nat.div_mul_le_self len 4
  unfold __ext_v_shift_left_complex16 ref_v_shift_left_complex16
  dsimp only
  split_ifs with h1 h2 <;>
    first
      | rfl
      | (exfalso; omega)
      | rw [slli16_eq, slli16_eq]
      | (rw [Nat.shiftLeft_eq, Nat.shiftLeft_eq]
         exact congrArg₂ complex16.mk (slli16_eq _ _) (slli16_eq _ _))

theorem v_shift_left_complex32_spec (z : Nat → complex32) (u3 : Int) (x : Nat → complex32)
    (len : Nat) (sh : Nat) :
    (__ext_v_shift_left_complex32 z u3 x len sh).1 = ref_v_shift_left_complex32 z x len sh := by
  funext i
  have hle : len / 2 * 2 ≤ len := Nat.div_mul_le_self len 2
  unfold __ext_v_shift_left_complex32 ref_v_shift_left_complex32
  dsimp only
  split_ifs with h1 h2 <;>
    first
      | rfl
      | (exfalso; omega)
      | rw [slli32_eq, slli32_eq]
      | (rw [Nat.shiftLeft_eq, Nat.shiftLeft_eq]
         exact congrArg₂ complex32.mk (slli32_eq _ _) (slli32_eq _ _))

theorem v_shift_right_int16_spec (z : Nat → Int) (u3 : Int) (x : Nat → Int)
    (len : Nat) (sh : Nat) (hx : ∀ i, inRange16 (x i)) :
    (__ext_v_shift_right_int16 z u3 x len sh).1 = ref_v_shift_right_int16 z x len sh := by
  funext i
  have hle : len / 8 * 8 ≤ len := Nat.div_mul_le_self len 8
  unfold __ext_v_shift_right_int16 ref_v_shift_right_int16
  dsimp only
  split_ifs with h1 h2 <;> first | rfl | (exfalso; omega) | rw [srai16_eq _ _ (hx i)]

theorem v_shift_right_int32_spec (z : Nat → Int) (u3 : Int) (x : Nat → Int)
    (len : Nat) (sh : Nat) (hx : ∀ i, inRange32 (x i)) :
    (__ext_v_shift_right_int32 z u3 x len sh).1 = ref_v_shift_right_int32 z x len sh := by
  funext i
  have hle : len / 4 * 4 ≤ len := Nat.div_mul_le_self len 4
  unfold __ext_v_shift_right_int32 ref_v_shift_right_int32
  dsimp only
  split_ifs with h1 h2 <;> first | rfl | (exfalso; omega) | rw [srai32_eq _ _ (hx i)]

theorem v_shift_right_complex16_prefix (z : Nat → complex16) (u3 : Int)
    (x : Nat → complex16) (len : Nat) (sh : Nat) (hx : ∀ i, inRangeC16 (x i)) :
    ∀ i, i < len / 4 * 4 →
      (__ext_v_shift_right_complex16 z u3 x len sh).1 i
        = ref_v_shift_right_complex16 z x len sh i := by
  intro i hi
  have hle : len / 4 * 4 ≤ len := Nat.div_mul_le_self len 4
  unfold __ext_v_shift_right_complex16 ref_v_shift_right_complex16
  dsimp only
  rw [if_pos hi, if_pos (by omega), srai16_eq _ _ (hx i).1, srai16_eq _ _ (hx i).2]

theorem v_shift_right_complex16_remainder (z : Nat → complex16) (u3 : Int)
    (x : Nat → complex16) (len : Nat) (sh : Nat) (hx : ∀ i, inRangeC16 (x i)) :
    ∀ i, len / 4 * 4 ≤ i → i < len → 0 ≤ (x i).re → 0 ≤ (x i).im →
      (__ext_v_shift_right_complex16 z u3 x len sh).1 i
        = ref_v_shift_right_complex16 z x len sh i := by
  intro i hlo hhi hr him
  unfold __ext_v_shift_right_complex16 ref_v_shift_right_complex16
  dsimp only
  rw [if_neg (by omega), if_pos hhi, if_pos hhi,
    lsr16_eq_asr _ _ (hx i).1 hr, lsr16_eq_asr _ _ (hx i).2 him]

theorem v_shift_right_complex32_prefix (z : Nat → complex32) (u3 : Int)
    (x : Nat → complex32) (len : Nat) (sh : Nat) (hx : ∀ i, inRangeC32 (x i)) :
    ∀ i, i < len / 2 * 2 →
      (__ext_v_shift_right_complex32 z u3 x len sh).1 i
        = ref_v_shift_right_complex32 z x len sh i := by
  intro i hi
  have hle : len / 2 * 2 ≤ len := Nat.div_mul_le_self len 2
  unfold __ext_v_shift_right_complex32 ref_v_shift_right_complex32
  dsimp only
  rw [if_pos hi, if_pos (by omega), srai32_eq _ _ (hx i).1, srai32_eq _ _ (hx i).2]

theorem v_shift_right_complex32_remainder (z : Nat → complex32) (u3 : Int)
    (x : Nat → complex32) (len : Nat) (sh : Nat) (hx : ∀ i, inRangeC32 (x i)) :
    ∀ i, len / 2 * 2 ≤ i → i < len → 0 ≤ (x i).re → 0 ≤ (x i).im →
      (__ext_v_shift_right_complex32 z u3 x len sh).1 i
        = ref_v_shift_right_complex32 z x len sh i := by
  intro i hlo hhi hr him
  unfold __ext_v_shift_right_complex32 ref_v_shift_right_complex32
  dsimp only
  rw [if_neg (by omega), if_pos hhi, if_pos hhi,
    lsr32_eq_asr _ _ (hx i).1 hr, lsr32_eq_asr _ _ (hx i).2 him]

theorem v_mul_complex16_spec (out : Nat → complex16) (lenout : Int) (x : Nat → complex16)
    (len1 : Nat) (y : Nat → complex16) (len2 : Int) (sh : Nat)
    (hx : ∀ i, inRangeC16 (x i)) (hy : ∀ i, inRangeC16 (y i))
    (hxim : ∀ i, (x i).im ≠ -32768) :
    (__ext_v_mul_complex16 out lenout x len1 y len2 sh).1
      = ref_v_mul_complex16 out x len1 y sh := by
  funext i
  have hle : len1 / 4 * 4 ≤ len1 := Nat.div_mul_le_self len1 4
  unfold __ext_v_mul_complex16 ref_v_mul_complex16
  dsimp only
  split_ifs with h1 h2
  · exact v_mul_lane_eq (x i) (y i) sh (hx i) (hy i) (hxim i)
  · exfalso; omega
  · rfl
  · rfl

theorem v_conj_mul_complex16_spec (out : Nat → complex16) (lenout : Int)
    (x : Nat → complex16) (len1 : Nat) (y : Nat → complex16) (len2 : Int) (sh : Nat)
    (hx : ∀ i, inRangeC16 (x i)) (hy : ∀ i, inRangeC16 (y i))
    (hyim : ∀ i, (y i).im ≠ -32768) :
    (__ext_v_conj_mul_complex16 out lenout x len1 y len2 sh).1
      = ref_v_conj_mul_complex16 out x len1 y sh := by
  funext i
  have hle : len1 / 4 * 4 ≤ len1 := Nat.div_mul_le_self len1 4
  unfold __ext_v_conj_mul_complex16 ref_v_conj_mul_complex16
  dsimp only
  split_ifs with h1 h2
  · exact v_conj_mul_lane_eq (x i) (y i) sh (hx i) (hy i) (hyim i)
  · exfalso; omega
  · rfl
  · rfl

theorem v_conj_mul_int32_re_spec (re : Nat → Int) (lenout1 : Int) (im : Nat → Int)
    (lenout2 : Int) (x : Nat → complex16) (len1 : Nat) (y : Nat → complex16) (len2 : Int)
    (hx : ∀ i, inRangeC16 (x i)) (hy : ∀ i, inRangeC16 (y i)) :
    (__ext_v_conj_mul_complex16_int32 re lenout1 im lenout2 x len1 y len2).1.1
      = ref_v_conj_mul_int32_re re x len1 y := by
  funext i
  have hle : len1 / 4 * 4 ≤ len1 := Nat.div_mul_le_self len1 4
  unfold __ext_v_conj_mul_complex16_int32 ref_v_conj_mul_int32_re
  dsimp only
  split_ifs with h1 h2
  · exact v_conj_mul_int32_re_lane_eq (x i) (y i) (hx i) (hy i)
  · exfalso; omega
  · rfl
  · rfl

theorem v_conj_mul_int32_im_spec (re : Nat → Int) (lenout1 : Int) (im : Nat → Int)
    (lenout2 : Int) (x : Nat → complex16) (len1 : Nat) (y : Nat → complex16) (len2 : Int)
    (hx : ∀ i, inRangeC16 (x i)) (hy : ∀ i, inRangeC16 (y i))
    (hyim : ∀ i, (y i).im ≠ -32768) :
    (__ext_v_conj_mul_complex16_int32 re lenout1 im lenout2 x len1 y len2).1.2
      = ref_v_conj_mul_int32_im im x len1 y := by
  funext i
  have hle : len1 / 4 * 4 ≤ len1 := Nat.div_mul_le_self len1 4
  unfold __ext_v_conj_mul_complex16_int32 ref_v_conj_mul_int32_im
  dsimp only
  split_ifs with h1 h2
  · exact v_conj_mul_int32_im_lane_eq (x i) (y i) (hx i) (hy i) (hyim i)
  · exfalso; omega
  · rfl
  · rfl

end Ziria

namespace Ziria

/-! ### Byte-level facts for the bit-array OR kernels -/

theorem or_mod_pow (w a b : Nat) : (a ||| b) % 2 ^ w = a % 2 ^ w ||| b % 2 ^ w := by
  have hpos : 0 < 2 ^ w := Nat.two_pow_pos w
  have ha : a % 2 ^ w + 2 ^ w * (a / 2 ^ w) = a := Nat.mod_add_div a (2 ^ w)
  have hb : b % 2 ^ w + 2 ^ w * (b / 2 ^ w) = b := Nat.mod_add_div b (2 ^ w)
  have h := split_or w (a % 2 ^ w) (a / 2 ^ w) (b % 2 ^ w) (b / 2 ^ w)
    (Nat.mod_lt _ hpos) (Nat.mod_lt _ hpos)
  rw [ha, hb] at h
  have hx : a % 2 ^ w ||| b % 2 ^ w < 2 ^ w :=
    Nat.or_lt_two_pow (Nat.mod_lt _ hpos) (Nat.mod_lt _ hpos)
  rw [h, Nat.add_mul_mod_self_left, Nat.mod_eq_of_lt hx]

theorem or_div_pow (w a b : Nat) : (a ||| b) / 2 ^ w = a / 2 ^ w ||| b / 2 ^ w := by
  have hpos : 0 < 2 ^ w := Nat.two_pow_pos w
  have ha : a % 2 ^ w + 2 ^ w * (a / 2 ^ w) = a := Nat.mod_add_div a (2 ^ w)
  have hb : b % 2 ^ w + 2 ^ w * (b / 2 ^ w) = b := Nat.mod_add_div b (2 ^ w)
  have h := split_or w (a % 2 ^ w) (a / 2 ^ w) (b % 2 ^ w) (b / 2 ^ w)
    (Nat.mod_lt _ hpos) (Nat.mod_lt _ hpos)
  rw [ha, hb] at h
  have hx : a % 2 ^ w ||| b % 2 ^ w < 2 ^ w :=
    Nat.or_lt_two_pow (Nat.mod_lt _ hpos) (Nat.mod_lt _ hpos)
  rw [h, Nat.add_mul_div_left _ _ hpos, Nat.div_eq_of_lt hx, Nat.zero_add]

/-- Extracting byte `m` of a word-level OR is the OR of the bytes. -/
theorem byte_of_or (m a b : Nat) :
    (a ||| b) / 256 ^ m % 256 = a / 256 ^ m % 256 ||| b / 256 ^ m % 256 := by
  have h256 : (256 : Nat) = 2 ^ 8 := by norm_num
  have hpm : (256 : Nat) ^ m = 2 ^ (8 * m) := by rw [h256, ← pow_mul]
  rw [hpm, h256, or_div_pow, or_mod_pow]

/-- Byte `m` of a little-endian `n`-byte load is the byte at offset `k + m`. -/
theorem loadW_byte (n : Nat) (f : Nat → Nat) (hf : ∀ i, f i < 256) :
    ∀ (k m : Nat), m < n → loadW n f k / 256 ^ m % 256 = f (k + m) := by
  induction n with
  | zero => intro k m hm; exact absurd hm (Nat.not_lt_zero m)
  | succ n ih =>
    intro k m hm
    cases m with
    | zero =>
      simp only [loadW, pow_zero, Nat.div_one, Nat.add_zero]
      rw [Nat.add_mul_mod_self_left, Nat.mod_eq_of_lt (hf k)]
    | succ m =>
      simp only [loadW]
      have hdiv : (f k + 256 * loadW n f (k + 1)) / 256 = loadW n f (k + 1) := by
        rw [Nat.add_mul_div_left _ _ (by norm_num : 0 < 256),
          Nat.div_eq_of_lt (hf k), Nat.zero_add]
      have hpow : (256 : Nat) ^ (m + 1) = 256 * 256 ^ m := by ring
      rw [hpow, ← Nat.div_div_eq_div_mul, hdiv, ih (k + 1) m (by omega)]
      congr 1
      omega

theorem storeW_in (n w k : Nat) (f : Nat → Nat) (j : Nat) (h1 : k ≤ j) (h2 : j < k + n) :
    storeW n w k f j = w / 256 ^ (j - k) % 256 := by
  unfold storeW; rw [if_pos ⟨h1, h2⟩]

theorem storeW_out (n w k : Nat) (f : Nat → Nat) (j : Nat) (h : ¬(k ≤ j ∧ j < k + n)) :
    storeW n w k f j = f j := by
  unfold storeW; rw [if_neg h]

theorem v_or_48_bytes (out i1 i2 : Nat → Nat) (h1 : ∀ i, i1 i < 256)
    (h2 : ∀ i, i2 i < 256) : ∀ j, j < 6 → __ext_v_or_48 out i1 i2 j = i1 j ||| i2 j := by
  intro j hj
  unfold __ext_v_or_48
  by_cases hj4 : j < 4
  · rw [storeW_out _ _ _ _ _ (by omega), storeW_in _ _ _ _ _ (by omega) (by omega)]
    simp only [Nat.sub_zero]
    rw [byte_of_or, loadW_byte 4 i1 h1 0 j (by omega), loadW_byte 4 i2 h2 0 j (by omega),
      Nat.zero_add]
  · rw [storeW_in _ _ _ _ _ (by omega) (by omega)]
    rw [byte_of_or, loadW_byte 2 i1 h1 4 (j - 4) (by omega),
      loadW_byte 2 i2 h2 4 (j - 4) (by omega)]
    have e : 4 + (j - 4) = j := by omega
    rw [e]

theorem v_or_96_bytes (out i1 i2 : Nat → Nat) (off : Nat) (h1 : ∀ i, i1 i < 256)
    (h2 : ∀ i, i2 i < 256) :
    ∀ j, off ≤ j → j < off + 12 → __ext_v_or_96 out i1 i2 off j = i1 j ||| i2 j := by
  intro j hlo hhi
  unfold __ext_v_or_96
  by_cases hj8 : j < off + 8
  · rw [storeW_out _ _ _ _ _ (by omega), storeW_in _ _ _ _ _ (by omega) (by omega)]
    rw [byte_of_or, loadW_byte 8 i1 h1 off (j - off) (by omega),
      loadW_byte 8 i2 h2 off (j - off) (by omega)]
    have e : off + (j - off) = j := by omega
    rw [e]
  · rw [storeW_in _ _ _ _ _ (by omega) (by omega)]
    rw [byte_of_or, loadW_byte 4 i1 h1 (off + 8) (j - (off + 8)) (by omega),
      loadW_byte 4 i2 h2 (off + 8) (j - (off + 8)) (by omega)]
    have e : off + 8 + (j - (off + 8)) = j := by omega
    rw [e]

theorem v_or_96_untouched (out i1 i2 : Nat → Nat) (off : Nat) (j : Nat) (h : j < off) :
    __ext_v_or_96 out i1 i2 off j = out j := by
  unfold __ext_v_or_96
  rw [storeW_out _ _ _ _ _ (by omega), storeW_out _ _ _ _ _ (by omega)]

theorem v_or_192_bytes (out i1 i2 : Nat → Nat) (h1 : ∀ i, i1 i < 256)
    (h2 : ∀ i, i2 i < 256) : ∀ j, j < 24 → __ext_v_or_192 out i1 i2 j = i1 j ||| i2 j := by
  intro j hj
  unfold __ext_v_or_192
  by_cases c1 : j < 8
  · rw [storeW_out _ _ _ _ _ (by omega), storeW_out _ _ _ _ _ (by omega),
      storeW_in _ _ _ _ _ (by omega) (by omega)]
    simp only [Nat.sub_zero]
    rw [byte_of_or, loadW_byte 8 i1 h1 0 j (by omega), loadW_byte 8 i2 h2 0 j (by omega),
      Nat.zero_add]
  · by_cases c2 : j < 16
    · rw [storeW_out _ _ _ _ _ (by omega), storeW_in _ _ _ _ _ (by omega) (by omega)]
      rw [byte_of_or, loadW_byte 8 i1 h1 8 (j - 8) (by omega),
        loadW_byte 8 i2 h2 8 (j - 8) (by omega)]
      have e : 8 + (j - 8) = j := by omega
      rw [e]
    · rw [storeW_in _ _ _ _ _ (by omega) (by omega)]
      rw [byte_of_or, loadW_byte 8 i1 h1 16 (j - 16) (by omega),
        loadW_byte 8 i2 h2 16 (j - 16) (by omega)]
      have e : 16 + (j - 16) = j := by omega
      rw [e]

theorem v_or_288_bytes (out i1 i2 : Nat → Nat) (h1 : ∀ i, i1 i < 256)
    (h2 : ∀ i, i2 i < 256) : ∀ j, j < 36 → __ext_v_or_288 out i1 i2 j = i1 j ||| i2 j := by
  intro j hj
  unfold __ext_v_or_288
  by_cases c : j < 24
  · rw [v_or_96_untouched _ _ _ _ _ (by omega)]
    exact v_or_192_bytes out i1 i2 h1 h2 j (by omega)
  · exact v_or_96_bytes _ i1 i2 24 h1 h2 j (by omega) (by omega)

end Ziria

namespace Ziria

/-- C7: for `inlen1` ∈ {48, 96, 192, 288} the dispatcher takes the specialized
wide-load path, and for every other `inlen1` the generic byte loop runs; in
every case byte `j < ceil(inlen1/8)` of the output equals
`input1[j] | input2[j]`, i.e. the fast paths are byte-for-byte identical to
the generic byte loop. -/
theorem c7_or_fast_paths_match_generic (output : Nat → Nat) (outlen : Int)
    (input1 : Nat → Nat) (inlen1 : Nat) (input2 : Nat → Nat) (inlen2 : Int)
    (h1 : ∀ i, input1 i < 256) (h2 : ∀ i, input2 i < 256) :
    ∀ j, j < (inlen1 + 7) / 8 →
      __ext_v_or output outlen input1 inlen1 input2 inlen2 j = input1 j ||| input2 j := by
  intro j hj
  unfold __ext_v_or
  split_ifs with h48 h96 h192 h288
  · subst h48; norm_num at hj; exact v_or_48_bytes output input1 input2 h1 h2 j hj
  · subst h96; norm_num at hj
    exact v_or_96_bytes output input1 input2 0 h1 h2 j (by omega) (by omega)
  · subst h192; norm_num at hj; exact v_or_192_bytes output input1 input2 h1 h2 j hj
  · subst h288; norm_num at hj; exact v_or_288_bytes output input1 input2 h1 h2 j hj
  · dsimp only; rw [if_pos hj]

/-- C7 witness: the 48-bit fast path at a concrete input. -/
theorem c7_witness :
    __ext_v_or (fun _ => 0) 0 (fun _ => 5) 48 (fun _ => 3) 48 0 = 5 ||| 3 :=
  c7_or_fast_paths_match_generic (fun _ => 0) 0 (fun _ => 5) 48 (fun _ => 3) 48
    (fun _ => by norm_num) (fun _ => by norm_num) 0 (by norm_num)

/-- C8: both `hadd` kernels broadcast the (wrapping) total of the four input
elements into all four output lanes. -/
theorem c8_hadd_broadcast (z : Nat → complex16) (u2 u1 : Int) (x : Nat → complex16)
    (zi : Nat → Int) (u21 u20 : Int) (xi : Nat → Int) :
    (∀ i, i < 4 → (__ext_v_hadd_complex16 z u2 x u1).1 i
        = ⟨wrap16 ((x 0).re + (x 1).re + (x 2).re + (x 3).re),
           wrap16 ((x 0).im + (x 1).im + (x 2).im + (x 3).im)⟩)
    ∧ (∀ i, i < 4 → (__ext_v_hadd_int32 zi u21 xi u20).1 i
        = wrap32 (xi 0 + xi 1 + xi 2 + xi 3)) := by
  constructor
  · intro i hi; unfold __ext_v_hadd_complex16; dsimp only; rw [if_pos hi]
  · intro i hi; unfold __ext_v_hadd_int32; dsimp only; rw [if_pos hi]

/-- C8 witness: lane 2 of `hadd` over a concrete vector. -/
theorem c8_witness :
    (__ext_v_hadd_complex16 (fun _ => ⟨0, 0⟩) 0 (fun _ => ⟨7, -9⟩) 0).1 2
      = ⟨wrap16 (7 + 7 + 7 + 7), wrap16 (-9 + -9 + -9 + -9)⟩ :=
  (c8_hadd_broadcast (fun _ => ⟨0, 0⟩) 0 0 (fun _ => ⟨7, -9⟩) (fun _ => 0) 0 0
    (fun _ => 0)).1 2 (by norm_num)

/-- C9: the `__unused_*` arguments of all add/sub/hadd/shift kernels, the
`outlen`/unused length arguments of the bitwise AND/OR/XOR/AND-NOT kernels
(including the one-byte specializations, whose length arguments are all
unused), and the length argument of the fixed 4-element sums have no effect
on output buffers or return values. -/
theorem c9_unused_length_params_no_effect
    (c16 a16 b16 : Nat → complex16) (len : Nat) (u1 u2 u1' u2' : Int)
    (cc32 ac32 bc32 : Nat → complex32) (ci16 ai16 bi16 ci32 ai32 bi32 : Nat → Int)
    (z x : Nat → complex16) (zi xi : Nat → Int)
    (zc32v xc32v : Nat → complex32)
    (u3 u3' u21 u21' u20 u20' : Int) (sh : Nat)
    (outb i1b i2b : Nat → Nat) (ol ol' il1 il1' il2 il2' : Int) (inlen1 : Nat)
    (xc32 : Nat → complex32) :
    __ext_v_add_complex16 c16 len a16 u2 b16 u1 = __ext_v_add_complex16 c16 len a16 u2' b16 u1'
    ∧ __ext_v_add_complex32 cc32 len ac32 u2 bc32 u1
      = __ext_v_add_complex32 cc32 len ac32 u2' bc32 u1'
    ∧ __ext_v_add_int16 ci16 len ai16 u2 bi16 u1 = __ext_v_add_int16 ci16 len ai16 u2' bi16 u1'
    ∧ __ext_v_add_int32 ci32 len ai32 u2 bi32 u1 = __ext_v_add_int32 ci32 len ai32 u2' bi32 u1'
    ∧ __ext_v_sub_complex16 c16 len a16 u2 b16 u1 = __ext_v_sub_complex16 c16 len a16 u2' b16 u1'
    ∧ __ext_v_sub_complex32 cc32 len ac32 u2 bc32 u1
      = __ext_v_sub_complex32 cc32 len ac32 u2' bc32 u1'
    ∧ __ext_v_sub_int16 ci16 len ai16 u2 bi16 u1 = __ext_v_sub_int16 ci16 len ai16 u2' bi16 u1'
    ∧ __ext_v_sub_int32 ci32 len ai32 u2 bi32 u1 = __ext_v_sub_int32 ci32 len ai32 u2' bi32 u1'
    ∧ __ext_v_hadd_complex16 z u2 x u1 = __ext_v_hadd_complex16 z u2' x u1'
    ∧ __ext_v_hadd_int32 zi u21 xi u20 = __ext_v_hadd_int32 zi u21' xi u20'
    ∧ __ext_v_shift_right_complex16 z u3 x len sh = __ext_v_shift_right_complex16 z u3' x len sh
    ∧ __ext_v_shift_right_complex32 zc32v u3 xc32v len sh
      = __ext_v_shift_right_complex32 zc32v u3' xc32v len sh
    ∧ __ext_v_shift_right_int16 zi u3 xi len sh = __ext_v_shift_right_int16 zi u3' xi len sh
    ∧ __ext_v_shift_right_int32 zi u3 xi len sh = __ext_v_shift_right_int32 zi u3' xi len sh
    ∧ __ext_v_shift_left_complex16 z u3 x len sh = __ext_v_shift_left_complex16 z u3' x len sh
    ∧ __ext_v_shift_left_complex32 zc32v u3 xc32v len sh
      = __ext_v_shift_left_complex32 zc32v u3' xc32v len sh
    ∧ __ext_v_shift_left_int16 zi u3 xi len sh = __ext_v_shift_left_int16 zi u3' xi len sh
    ∧ __ext_v_shift_left_int32 zi u3 xi len sh = __ext_v_shift_left_int32 zi u3' xi len sh
    ∧ __ext_v_and outb ol i1b inlen1 i2b il2 = __ext_v_and outb ol' i1b inlen1 i2b il2'
    ∧ __ext_v_or outb ol i1b inlen1 i2b il2 = __ext_v_or outb ol' i1b inlen1 i2b il2'
    ∧ __ext_v_xor outb ol i1b inlen1 i2b il2 = __ext_v_xor outb ol' i1b inlen1 i2b il2'
    ∧ __ext_v_andnot outb ol i1b inlen1 i2b il2 = __ext_v_andnot outb ol' i1b inlen1 i2b il2'
    ∧ __ext_v_and8 outb ol i1b il1 i2b il2 = __ext_v_and8 outb ol' i1b il1' i2b il2'
    ∧ __ext_v_xor8 outb ol i1b il1 i2b il2 = __ext_v_xor8 outb ol' i1b il1' i2b il2'
    ∧ __ext_v_andnot8 outb ol i1b il1 i2b il2 = __ext_v_andnot8 outb ol' i1b il1' i2b il2'
    ∧ __ext_v_or8 outb ol i1b il1 i2b il2 = __ext_v_or8 outb ol' i1b il1' i2b il2'
    ∧ __ext_sumc32 xc32 u20 = __ext_sumc32 xc32 u20'
    ∧ __ext_sumc16 x u20 = __ext_sumc16 x u20'
    ∧ __ext_sumi32 xi u21 = __ext_sumi32 xi u21'
    ∧ __ext_sumi16 xi u21 = __ext_sumi16 xi u21' :=
  ⟨rfl, rfl, rfl, rfl, rfl, rfl, rfl, rfl, rfl, rfl, rfl, rfl, rfl, rfl, rfl,
   rfl, rfl, rfl, rfl, rfl, rfl, rfl, rfl, rfl, rfl, rfl, rfl, rfl, rfl, rfl⟩

/-- C10: `populateRandomBits` writes exactly bytes `0 ..< siz/8` from the
PRNG stream and leaves every byte at index `≥ siz/8` unchanged; for `siz < 8`
the buffer is untouched. -/
theorem c10_populate_rand_writes_exactly (g arr : Nat → Nat) (siz : Nat) :
    (∀ i, i < siz / 8 → (__ext_populate_rand_array g arr siz).1 i = g i % 256)
    ∧ (∀ i, siz / 8 ≤ i → (__ext_populate_rand_array g arr siz).1 i = arr i)
    ∧ (siz < 8 → (__ext_populate_rand_array g arr siz).1 = arr) := by
  refine ⟨?_, ?_, ?_⟩
  · intro i hi; unfold __ext_populate_rand_array; dsimp only; rw [if_pos hi]
  · intro i hi; unfold __ext_populate_rand_array; dsimp only; rw [if_neg (by omega)]
  · intro h; funext i; unfold __ext_populate_rand_array; dsimp only
    rw [if_neg (by omega)]

/-- C10 witness: `siz = 17` writes bytes 0 and 1 only. -/
theorem c10_witness :
    (__ext_populate_rand_array (fun _ => 300) (fun _ => 9) 17).1 0 = 300 % 256
    ∧ (__ext_populate_rand_array (fun _ => 300) (fun _ => 9) 17).1 5 = 9 :=
  ⟨(c10_populate_rand_writes_exactly (fun _ => 300) (fun _ => 9) 17).1 0 (by norm_num),
   (c10_populate_rand_writes_exactly (fun _ => 300) (fun _ => 9) 17).2.1 5 (by norm_num)⟩

end Ziria

namespace Ziria

/-! ### FFT / IFFT dispatcher facts -/

theorem sora_fft_mem (T : Int → (Nat → complex16) → (Nat → complex16))
    (out inp : Nat → complex16) :
    ∀ n ∈ fftCatalog, __ext_sora_fft T out n inp = (T n inp, false) := by
  intro n hn
  fin_cases hn <;> rfl

theorem sora_ifft_mem (T : Int → (Nat → complex16) → (Nat → complex16))
    (out inp : Nat → complex16) :
    ∀ n ∈ fftCatalog, __ext_sora_ifft T out n inp = (T n inp, false) := by
  intro n hn
  fin_cases hn <;> rfl

theorem sora_fft_not_mem (T : Int → (Nat → complex16) → (Nat → complex16))
    (out inp : Nat → complex16) (n : Int) (h : n ∉ fftCatalog) :
    __ext_sora_fft T out n inp = (out, true) := by
  unfold __ext_sora_fft
  repeat rw [if_neg (fun hc => h (by rw [hc]; decide))]

theorem sora_ifft_not_mem (T : Int → (Nat → complex16) → (Nat → complex16))
    (out inp : Nat → complex16) (n : Int) (h : n ∉ fftCatalog) :
    __ext_sora_ifft T out n inp = (out, true) := by
  unfold __ext_sora_ifft
  repeat rw [if_neg (fun hc => h (by rw [hc]; decide))]

/-- C3: for a size outside the catalog both `fft` and `ifft` emit the
size-not-supported diagnostic and return the output buffer unmodified; for a
size in the catalog the fixed-size transform of exactly that size is applied
and no diagnostic is emitted. -/
theorem c3_fft_size_dispatch
    (FFTSafe IFFTSafe : Int → (Nat → complex16) → (Nat → complex16))
    (output input : Nat → complex16) (n : Int) :
    (n ∉ fftCatalog →
      __ext_sora_fft FFTSafe output n input = (output, true)
      ∧ __ext_sora_ifft IFFTSafe output n input = (output, true))
    ∧ (n ∈ fftCatalog →
      __ext_sora_fft FFTSafe output n input = (FFTSafe n input, false)
      ∧ __ext_sora_ifft IFFTSafe output n input = (IFFTSafe n input, false)) :=
  ⟨fun h => ⟨sora_fft_not_mem FFTSafe output input n h,
             sora_ifft_not_mem IFFTSafe output input n h⟩,
   fun h => ⟨sora_fft_mem FFTSafe output input n h,
             sora_ifft_mem IFFTSafe output input n h⟩⟩

/-- C3 witness: size 7 is rejected with the output untouched, size 64 runs
the size-64 transform. -/
theorem c3_witness :
    __ext_sora_fft (fun _ inp => inp) (fun _ => ⟨1, 2⟩) 7 (fun _ => ⟨3, 4⟩)
        = ((fun _ => ⟨1, 2⟩), true)
    ∧ __ext_sora_fft (fun _ inp => inp) (fun _ => ⟨1, 2⟩) 64 (fun _ => ⟨3, 4⟩)
        = ((fun _ => ⟨3, 4⟩), false) :=
  ⟨((c3_fft_size_dispatch (fun _ inp => inp) (fun _ inp => inp)
      (fun _ => ⟨1, 2⟩) (fun _ => ⟨3, 4⟩) 7).1 (by decide)).1,
   ((c3_fft_size_dispatch (fun _ inp => inp) (fun _ inp => inp)
      (fun _ => ⟨1, 2⟩) (fun _ => ⟨3, 4⟩) 64).2 (by decide)).1⟩

end Ziria

namespace Ziria

/-- C1 (amended): the vectorized main loop plus scalar remainder equal the
naive scalar reference for `add`/`sub` (all four element types) and
`shiftLeft` (all four types) unconditionally; for `shiftRight` over
`int16`/`int32` on in-range inputs; for `multiply`/`conjugateMultiply`
provided the negated component (`x.im`, resp. `y.im`) is never `-32768`
(the `re` part of the `int32` conjugate-multiply needs no such condition);
for `shiftRight` over `complex16`/`complex32` only on the vector-processed
prefix, the remainder loop shifting the unsigned component pattern, which
matches the arithmetic reference just on nonnegative components. -/
theorem c1_simd_equals_scalar_reference
    (len sh : Nat) (u1 u2 u3 lo l2 : Int)
    (cc16 ac16 bc16 : Nat → complex16) (cc32 ac32 bc32 : Nat → complex32)
    (ci16 ai16 bi16 ci32 ai32 bi32 : Nat → Int)
    (zc16 xc16 : Nat → complex16) (zc32 xc32 : Nat → complex32)
    (zi16 xi16 zi32 xi32 : Nat → Int)
    (mout mx my : Nat → complex16) (ri ii : Nat → Int)
    (hxi16 : ∀ i, inRange16 (xi16 i)) (hxi32 : ∀ i, inRange32 (xi32 i))
    (hxc16 : ∀ i, inRangeC16 (xc16 i)) (hxc32 : ∀ i, inRangeC32 (xc32 i))
    (hmx : ∀ i, inRangeC16 (mx i)) (hmy : ∀ i, inRangeC16 (my i))
    (hmyim : ∀ i, (my i).im ≠ -32768) (hmxim : ∀ i, (mx i).im ≠ -32768) :
    ((__ext_v_add_complex16 cc16 len ac16 u2 bc16 u1).1
        = ref_v_add_complex16 cc16 len ac16 bc16
      ∧ (__ext_v_add_complex32 cc32 len ac32 u2 bc32 u1).1
        = ref_v_add_complex32 cc32 len ac32 bc32
      ∧ (__ext_v_add_int16 ci16 len ai16 u2 bi16 u1).1 = ref_v_add_int16 ci16 len ai16 bi16
      ∧ (__ext_v_add_int32 ci32 len ai32 u2 bi32 u1).1 = ref_v_add_int32 ci32 len ai32 bi32)
    ∧ ((__ext_v_sub_complex16 cc16 len ac16 u2 bc16 u1).1
        = ref_v_sub_complex16 cc16 len ac16 bc16
      ∧ (__ext_v_sub_complex32 cc32 len ac32 u2 bc32 u1).1
        = ref_v_sub_complex32 cc32 len ac32 bc32
      ∧ (__ext_v_sub_int16 ci16 len ai16 u2 bi16 u1).1 = ref_v_sub_int16 ci16 len ai16 bi16
      ∧ (__ext_v_sub_int32 ci32 len ai32 u2 bi32 u1).1 = ref_v_sub_int32 ci32 len ai32 bi32)
    ∧ ((__ext_v_shift_left_complex16 zc16 u3 xc16 len sh).1
        = ref_v_shift_left_complex16 zc16 xc16 len sh
      ∧ (__ext_v_shift_left_complex32 zc32 u3 xc32 len sh).1
        = ref_v_shift_left_complex32 zc32 xc32 len sh
      ∧ (__ext_v_shift_left_int16 zi16 u3 xi16 len sh).1
        = ref_v_shift_left_int16 zi16 xi16 len sh
      ∧ (__ext_v_shift_left_int32 zi32 u3 xi32 len sh).1
        = ref_v_shift_left_int32 zi32 xi32 len sh)
    ∧ ((__ext_v_shift_right_int16 zi16 u3 xi16 len sh).1
        = ref_v_shift_right_int16 zi16 xi16 len sh
      ∧ (__ext_v_shift_right_int32 zi32 u3 xi32 len sh).1
        = ref_v_shift_right_int32 zi32 xi32 len sh)
    ∧ ((∀ i, i < len / 4 * 4 →
          (__ext_v_shift_right_complex16 zc16 u3 xc16 len sh).1 i
            = ref_v_shift_right_complex16 zc16 xc16 len sh i)
      ∧ (∀ i, len / 4 * 4 ≤ i → i < len → 0 ≤ (xc16 i).re → 0 ≤ (xc16 i).im →
          (__ext_v_shift_right_complex16 zc16 u3 xc16 len sh).1 i
            = ref_v_shift_right_complex16 zc16 xc16 len sh i)
      ∧ (∀ i, i < len / 2 * 2 →
          (__ext_v_shift_right_complex32 zc32 u3 xc32 len sh).1 i
            = ref_v_shift_right_complex32 zc32 xc32 len sh i)
      ∧ (∀ i, len / 2 * 2 ≤ i → i < len → 0 ≤ (xc32 i).re → 0 ≤ (xc32 i).im →
          (__ext_v_shift_right_complex32 zc32 u3 xc32 len sh).1 i
            = ref_v_shift_right_complex32 zc32 xc32 len sh i))
    ∧ ((__ext_v_mul_complex16 mout lo mx len my l2 sh).1
        = ref_v_mul_complex16 mout mx len my sh
      ∧ (__ext_v_conj_mul_complex16 mout lo mx len my l2 sh).1
        = ref_v_conj_mul_complex16 mout mx len my sh
      ∧ (__ext_v_conj_mul_complex16_int32 ri lo ii l2 mx len my u1).1.1
        = ref_v_conj_mul_int32_re ri mx len my
      ∧ (__ext_v_conj_mul_complex16_int32 ri lo ii l2 mx len my u1).1.2
        = ref_v_conj_mul_int32_im ii mx len my) := by
  refine ⟨⟨?_, ?_, ?_, ?_⟩, ⟨?_, ?_, ?_, ?_⟩, ⟨?_, ?_, ?_, ?_⟩, ⟨?_, ?_⟩,
    ⟨?_, ?_, ?_, ?_⟩, ⟨?_, ?_, ?_, ?_⟩⟩
  · exact v_add_complex16_spec cc16 len ac16 bc16 u2 u1
  · exact v_add_complex32_spec cc32 len ac32 bc32 u2 u1
  · exact v_add_int16_spec ci16 len ai16 bi16 u2 u1
  · exact v_add_int32_spec ci32 len ai32 bi32 u2 u1
  · exact v_sub_complex16_spec cc16 len ac16 bc16 u2 u1
  · exact v_sub_complex32_spec cc32 len ac32 bc32 u2 u1
  · exact v_sub_int16_spec ci16 len ai16 bi16 u2 u1
  · exact v_sub_int32_spec ci32 len ai32 bi32 u2 u1
  · exact v_shift_left_complex16_spec zc16 u3 xc16 len sh
  · exact v_shift_left_complex32_spec zc32 u3 xc32 len sh
  · exact v_shift_left_int16_spec zi16 u3 xi16 len sh
  · exact v_shift_left_int32_spec zi32 u3 xi32 len sh
  · exact v_shift_right_int16_spec zi16 u3 xi16 len sh hxi16
  · exact v_shift_right_int32_spec zi32 u3 xi32 len sh hxi32
  · exact v_shift_right_complex16_prefix zc16 u3 xc16 len sh hxc16
  · exact v_shift_right_complex16_remainder zc16 u3 xc16 len sh hxc16
  · exact v_shift_right_complex32_prefix zc32 u3 xc32 len sh hxc32
  · exact v_shift_right_complex32_remainder zc32 u3 xc32 len sh hxc32
  · exact v_mul_complex16_spec mout lo mx len my l2 sh hmx hmy hmxim
  · exact v_conj_mul_complex16_spec mout lo mx len my l2 sh hmx hmy hmyim
  · exact v_conj_mul_int32_re_spec ri lo ii l2 mx len my u1 hmx hmy
  · exact v_conj_mul_int32_im_spec ri lo ii l2 mx len my u1 hmx hmy hmyim

/-- C1 counterexample: for `shiftRight` over `complex16` with `len = 1`,
`shift = 1`, `x[0] = (-2, 0)`, the kernel's remainder loop shifts the
unsigned pattern and yields `re = 32767`, while the scalar arithmetic-shift
reference yields `re = -1`: the outputs are not bit-identical. -/
theorem c1_counterexample :
    (__ext_v_shift_right_complex16 (fun _ => ⟨0, 0⟩) 0 (fun _ => ⟨-2, 0⟩) 1 1).1 0
        = ⟨32767, 0⟩
    ∧ ref_v_shift_right_complex16 (fun _ => ⟨0, 0⟩) (fun _ => ⟨-2, 0⟩) 1 1 0 = ⟨-1, 0⟩
    ∧ (__ext_v_shift_right_complex16 (fun _ => ⟨0, 0⟩) 0 (fun _ => ⟨-2, 0⟩) 1 1).1 0
        ≠ ref_v_shift_right_complex16 (fun _ => ⟨0, 0⟩) (fun _ => ⟨-2, 0⟩) 1 1 0 := by
  refine ⟨?_, ?_, ?_⟩ <;> decide

/-- C1 witness: the add kernel agrees with the reference at a concrete input
with `len = 5` (vector blocks plus a remainder element). -/
theorem c1_witness :
    (__ext_v_add_complex16 (fun _ => ⟨0, 0⟩) 5 (fun _ => ⟨30000, -30000⟩) 0
        (fun _ => ⟨30000, 7⟩) 0).1
      = ref_v_add_complex16 (fun _ => ⟨0, 0⟩) 5 (fun _ => ⟨30000, -30000⟩)
          (fun _ => ⟨30000, 7⟩) :=
  (c1_simd_equals_scalar_reference 5 1 0 0 0 0 0
    (fun _ => ⟨0, 0⟩) (fun _ => ⟨30000, -30000⟩) (fun _ => ⟨30000, 7⟩)
    (fun _ => ⟨0, 0⟩) (fun _ => ⟨1, 2⟩) (fun _ => ⟨3, 4⟩)
    (fun _ => 0) (fun _ => 1) (fun _ => 2) (fun _ => 0) (fun _ => 3) (fun _ => 4)
    (fun _ => ⟨0, 0⟩) (fun _ => ⟨5, -6⟩) (fun _ => ⟨0, 0⟩) (fun _ => ⟨7, -8⟩)
    (fun _ => 0) (fun _ => -9) (fun _ => 0) (fun _ => 10)
    (fun _ => ⟨0, 0⟩) (fun _ => ⟨11, -12⟩) (fun _ => ⟨13, 14⟩) (fun _ => 0) (fun _ => 0)
    (fun _ => show inRange16 (-9) by decide)
    (fun _ => show inRange32 10 by decide)
    (fun _ => show inRangeC16 ⟨5, -6⟩ by decide)
    (fun _ => show inRangeC32 ⟨7, -8⟩ by decide)
    (fun _ => show inRangeC16 ⟨11, -12⟩ by decide)
    (fun _ => show inRangeC16 ⟨13, 14⟩ by decide)
    (fun _ => show (⟨13, 14⟩ : complex16).im ≠ -32768 by decide)
    (fun _ => show (⟨11, -12⟩ : complex16).im ≠ -32768 by decide)).1.1

/-- C2 (amended): elementwise semantics of the multiply kernels, with all
products and sums taken in wrapping 32-bit arithmetic: the stated formulas
hold for every `i < len` provided the component the kernel negates by the
`xor/add` trick (`x.im` for multiply, `y.im` for the conjugate variants) is
not `-32768`; the `re` output of the `int32` conjugate multiply needs no such
condition. -/
theorem c2_multiply_shift_semantics
    (out : Nat → complex16) (ri ii : Nat → Int) (x y : Nat → complex16)
    (len sh : Nat) (lo l2 l3 l4 : Int)
    (hx : ∀ i, inRangeC16 (x i)) (hy : ∀ i, inRangeC16 (y i)) :
    (∀ i, i < len → (x i).im ≠ -32768 →
      (__ext_v_mul_complex16 out lo x len y l2 sh).1 i
        = ⟨wrap16 (asr (wrap32 ((x i).re * (y i).re - (x i).im * (y i).im)) sh),
           wrap16 (asr (wrap32 ((x i).re * (y i).im + (x i).im * (y i).re)) sh)⟩)
    ∧ (∀ i, i < len → (y i).im ≠ -32768 →
      (__ext_v_conj_mul_complex16 out lo x len y l2 sh).1 i
        = ⟨wrap16 (asr (wrap32 ((x i).re * (y i).re + (x i).im * (y i).im)) sh),
           wrap16 (asr (wrap32 ((x i).im * (y i).re - (x i).re * (y i).im)) sh)⟩)
    ∧ (∀ i, i < len →
      (__ext_v_conj_mul_complex16_int32 ri l3 ii l4 x len y l2).1.1 i
        = wrap32 ((x i).re * (y i).re + (x i).im * (y i).im))
    ∧ (∀ i, i < len → (y i).im ≠ -32768 →
      (__ext_v_conj_mul_complex16_int32 ri l3 ii l4 x len y l2).1.2 i
        = wrap32 ((x i).im * (y i).re - (x i).re * (y i).im)) := by
  refine ⟨?_, ?_, ?_, ?_⟩
  · intro i hi him
    unfold __ext_v_mul_complex16
    dsimp only
    split_ifs with h1
    · exact v_mul_lane_eq (x i) (y i) sh (hx i) (hy i) him
    · rfl
  · intro i hi him
    unfold __ext_v_conj_mul_complex16
    dsimp only
    split_ifs with h1
    · exact v_conj_mul_lane_eq (x i) (y i) sh (hx i) (hy i) him
    · rfl
  · intro i hi
    unfold __ext_v_conj_mul_complex16_int32
    dsimp only
    split_ifs with h1
    · exact v_conj_mul_int32_re_lane_eq (x i) (y i) (hx i) (hy i)
    · rfl
  · intro i hi him
    unfold __ext_v_conj_mul_complex16_int32
    dsimp only
    split_ifs with h1
    · exact v_conj_mul_int32_im_lane_eq (x i) (y i) (hx i) (hy i) him
    · rfl

/-- C2 counterexample: with `x[0] = (0, -32768)`, `y[0] = (0, 1)`,
`shift = 16`, `len = 4` (vector path), the kernel produces `re = -1`, while
the claimed formula gives `re = 0`: the wrapping negation of `-32768` in the
vectorized body diverges from the stated product formula. -/
theorem c2_counterexample :
    (__ext_v_mul_complex16 (fun _ => ⟨0, 0⟩) 0 (fun _ => ⟨0, -32768⟩) 4
        (fun _ => ⟨0, 1⟩) 0 16).1 0 = ⟨-1, 0⟩
    ∧ wrap16 (asr (wrap32 ((0 : Int) * 0 - (-32768) * 1)) 16) = 0
    ∧ (__ext_v_mul_complex16 (fun _ => ⟨0, 0⟩) 0 (fun _ => ⟨0, -32768⟩) 4
        (fun _ => ⟨0, 1⟩) 0 16).1 0
      ≠ ⟨wrap16 (asr (wrap32 ((0 : Int) * 0 - (-32768) * 1)) 16),
         wrap16 (asr (wrap32 ((0 : Int) * 1 + (-32768) * 0)) 16)⟩ := by
  refine ⟨?_, ?_, ?_⟩ <;> decide

/-- C2 witness: the multiply formula at a concrete in-range input. -/
theorem c2_witness :
    (__ext_v_mul_complex16 (fun _ => ⟨0, 0⟩) 0 (fun _ => ⟨3, 4⟩) 4
        (fun _ => ⟨5, -6⟩) 0 1).1 0
      = ⟨wrap16 (asr (wrap32 ((3 : Int) * 5 - 4 * (-6))) 1),
         wrap16 (asr (wrap32 ((3 : Int) * (-6) + 4 * 5)) 1)⟩ :=
  (c2_multiply_shift_semantics (fun _ => ⟨0, 0⟩) (fun _ => 0) (fun _ => 0)
    (fun _ => ⟨3, 4⟩) (fun _ => ⟨5, -6⟩) 4 1 0 0 0 0
    (fun _ => show inRangeC16 ⟨3, 4⟩ by decide)
    (fun _ => show inRangeC16 ⟨5, -6⟩ by decide)).1 0 (by norm_num)
    (show (⟨3, 4⟩ : complex16).im ≠ -32768 by decide)

/-- C4 (amended): `shiftRight` is a per-lane arithmetic (sign-preserving)
shift on every element for the `int16`/`int32` kernels, and on the
vector-processed prefix for the `complex16`/`complex32` kernels; the scalar
remainder loop of the complex kernels shifts the unsigned component pattern,
which equals the arithmetic shift only for nonnegative components. -/
theorem c4_shift_right_arithmetic
    (len sh : Nat) (u3 : Int)
    (zi16 xi16 zi32 xi32 : Nat → Int)
    (zc16 xc16 : Nat → complex16) (zc32 xc32 : Nat → complex32)
    (hxi16 : ∀ i, inRange16 (xi16 i)) (hxi32 : ∀ i, inRange32 (xi32 i))
    (hxc16 : ∀ i, inRangeC16 (xc16 i)) (hxc32 : ∀ i, inRangeC32 (xc32 i)) :
    (∀ i, i < len → (__ext_v_shift_right_int16 zi16 u3 xi16 len sh).1 i = asr (xi16 i) sh)
    ∧ (∀ i, i < len → (__ext_v_shift_right_int32 zi32 u3 xi32 len sh).1 i = asr (xi32 i) sh)
    ∧ (∀ i, i < len / 4 * 4 →
        (__ext_v_shift_right_complex16 zc16 u3 xc16 len sh).1 i
          = ⟨asr (xc16 i).re sh, asr (xc16 i).im sh⟩)
    ∧ (∀ i, len / 4 * 4 ≤ i → i < len → 0 ≤ (xc16 i).re → 0 ≤ (xc16 i).im →
        (__ext_v_shift_right_complex16 zc16 u3 xc16 len sh).1 i
          = ⟨asr (xc16 i).re sh, asr (xc16 i).im sh⟩)
    ∧ (∀ i, i < len / 2 * 2 →
        (__ext_v_shift_right_complex32 zc32 u3 xc32 len sh).1 i
          = ⟨asr (xc32 i).re sh, asr (xc32 i).im sh⟩)
    ∧ (∀ i, len / 2 * 2 ≤ i → i < len → 0 ≤ (xc32 i).re → 0 ≤ (xc32 i).im →
        (__ext_v_shift_right_complex32 zc32 u3 xc32 len sh).1 i
          = ⟨asr (xc32 i).re sh, asr (xc32 i).im sh⟩) := by
  refine ⟨?_, ?_, ?_, ?_, ?_, ?_⟩
  · intro i hi
    unfold __ext_v_shift_right_int16
    dsimp only
    split_ifs with h1
    · exact srai16_eq _ _ (hxi16 i)
    · rfl
  · intro i hi
    unfold __ext_v_shift_right_int32
    dsimp only
    split_ifs with h1
    · exact srai32_eq _ _ (hxi32 i)
    · rfl
  · intro i hi
    unfold __ext_v_shift_right_complex16
    dsimp only
    rw [if_pos hi, srai16_eq _ _ (hxc16 i).1, srai16_eq _ _ (hxc16 i).2]
  · intro i hlo hhi hr him
    unfold __ext_v_shift_right_complex16
    dsimp only
    rw [if_neg (by omega), if_pos hhi,
      lsr16_eq_asr _ _ (hxc16 i).1 hr, lsr16_eq_asr _ _ (hxc16 i).2 him]
  · intro i hi
    unfold __ext_v_shift_right_complex32
    dsimp only
    rw [if_pos hi, srai32_eq _ _ (hxc32 i).1, srai32_eq _ _ (hxc32 i).2]
  · intro i hlo hhi hr him
    unfold __ext_v_shift_right_complex32
    dsimp only
    rw [if_neg (by omega), if_pos hhi,
      lsr32_eq_asr _ _ (hxc32 i).1 hr, lsr32_eq_asr _ _ (hxc32 i).2 him]

/-- C4 counterexample: `shiftRight` over `complex32` with `len = 1`,
`shift = 1`, `x[0] = (-2, 4)`: the remainder loop yields `re = 2147483647`
(logical shift of the unsigned pattern), not the sign-preserving `-1`. -/
theorem c4_counterexample :
    (__ext_v_shift_right_complex32 (fun _ => ⟨0, 0⟩) 0 (fun _ => ⟨-2, 4⟩) 1 1).1 0
        = ⟨2147483647, 2⟩
    ∧ asr (-2) 1 = -1
    ∧ (__ext_v_shift_right_complex32 (fun _ => ⟨0, 0⟩) 0 (fun _ => ⟨-2, 4⟩) 1 1).1 0
        ≠ ⟨asr (-2) 1, asr 4 1⟩ := by
  refine ⟨?_, ?_, ?_⟩ <;> decide

/-- C4 witness: the `int16` kernel at a concrete negative input. -/
theorem c4_witness :
    (__ext_v_shift_right_int16 (fun _ => 0) 0 (fun _ => -8) 3 2).1 1 = asr (-8) 2 :=
  (c4_shift_right_arithmetic 3 2 0 (fun _ => 0) (fun _ => -8) (fun _ => 0) (fun _ => 0)
    (fun _ => ⟨0, 0⟩) (fun _ => ⟨0, 0⟩) (fun _ => ⟨0, 0⟩) (fun _ => ⟨0, 0⟩)
    (fun _ => show inRange16 (-8) by decide)
    (fun _ => show inRange32 0 by decide)
    (fun _ => show inRangeC16 ⟨0, 0⟩ by decide)
    (fun _ => show inRangeC32 ⟨0, 0⟩ by decide)).1 1 (by norm_num)

/-- C5: code bug — the remainder loop of
`__ext_v_pack_complex16_complex8` assigns `int16` components straight into
`int8` fields, wrapping instead of saturating: with `lenin = 1` and input
`(300, 0)` the packed byte is `44`, while the saturating vector path (here
`lenin = 8`, same data) yields `127`. -/
theorem c5_pack_remainder_wraps :
    __ext_v_pack_complex16_complex8 (fun _ => ⟨0, 0⟩) 0 (fun _ => ⟨300, 0⟩) 1 0 = ⟨44, 0⟩
    ∧ __ext_v_pack_complex16_complex8 (fun _ => ⟨0, 0⟩) 0 (fun _ => ⟨300, 0⟩) 8 0 = ⟨127, 0⟩
    ∧ (⟨44, 0⟩ : complex8) ≠ ⟨127, 0⟩ := by
  refine ⟨?_, ?_, ?_⟩ <;> decide

/-- C6: code bug — `__ext_sumi32` declares its accumulator as `int16`, so the
sum wraps at 16 bits: on `[32767, 1, 0, 0]` it returns `-32768`, while the
32-bit accumulating `__ext_v_sum_int32` over the same data returns `32768`. -/
theorem c6_sumi32_wraps_at_16_bits :
    __ext_sumi32 (fun i => if i = 0 then 32767 else if i = 1 then 1 else 0) 0 = -32768
    ∧ __ext_v_sum_int32 (fun i => if i = 0 then 32767 else if i = 1 then 1 else 0) 4 = 32768
    ∧ (-32768 : Int) ≠ 32768 := by
  refine ⟨?_, ?_, ?_⟩ <;> decide

end Ziria
